import Mathlib

set_option maxRecDepth 16000

/-!
Shallow embedding of the adflib library (ADF filesystem engine in
src/disk.rs with constants from src/consts.rs, DMS decoder in src/dms.rs,
Hunk parser in src/hunk.rs) and proofs about the claims of its
specification.

Conventions of the embedding:
* Bytes are Nat values in 0..255; multi-byte big-endian integers are Nat
  with explicit reductions modulo 2^32 (or 2^16 / 2^8) where the Rust code
  wraps.
* A Rust Vec of u8 is a List Nat; slice reads and writes are take / drop /
  append operations.
* Fallible Rust functions returning io::Result are embedded as Except AErr
  (or the DMS / Hunk error types below).  A Rust operation that panics
  (slice indexing out of range, arithmetic overflow in debug builds) is
  embedded as the distinguished error constructor crash, so a returned
  io::Error and a crash are distinguishable in every theorem.
* Rust String values produced by String::from_utf8_lossy are kept as the
  underlying byte lists; all names appearing in the theorems are ASCII, on
  which the lossy conversion is the identity.
-/

namespace Adflib

/-- Big-endian 32-bit word assembled from four bytes,
mirroring u32::from_be_bytes in the Rust sources. -/
def u32word (b0 b1 b2 b3 : Nat) : Nat :=
  b0 * 16777216 + b1 * 65536 + b2 * 256 + b3

/-- Big-endian u32 read at byte offset off of a byte list
(the common pattern u32::from_be_bytes([l[off], l[off+1], l[off+2], l[off+3]])
in disk.rs, used only where the Rust indices are statically in range). -/
def u32At (l : List Nat) (off : Nat) : Nat :=
  u32word (l.getD off 0) (l.getD (off + 1) 0) (l.getD (off + 2) 0) (l.getD (off + 3) 0)

/-- Big-endian u16 read at byte offset off of a byte list. -/
def u16At (l : List Nat) (off : Nat) : Nat :=
  (l.getD off 0) * 256 + l.getD (off + 1) 0

/-- u32::to_be_bytes: the four big-endian bytes of a 32-bit value. -/
def be32 (v : Nat) : List Nat :=
  [v / 16777216 % 256, v / 65536 % 256, v / 256 % 256, v % 256]

/-- slice[off..off+src.length].copy_from_slice(src) on a byte list
(used only where the Rust range is statically inside the slice). -/
def setBytes (l : List Nat) (off : Nat) (src : List Nat) : List Nat :=
  l.take off ++ src ++ l.drop (off + src.length)

/-- Error taxonomy of the embedded ADF engine.  Each constructor stands for
one io::Error actually constructed in disk.rs; crash stands for a Rust
panic (slice or Vec indexing out of range). -/
inductive AErr where
  /-- ErrorKind::InvalidInput, message "Invalid sector data size". -/
  | badLength
  /-- ErrorKind::InvalidData (bad ADF size in from_bytes, or unexpected
  block type in read_file_contents). -/
  | invalidData
  /-- ErrorKind::UnexpectedEof, message "File size mismatch ...". -/
  | sizeMismatch
  /-- ErrorKind::Other, message "No free blocks available". -/
  | noFreeBlocks
  /-- ErrorKind::NotFound. -/
  | notFound
  /-- ErrorKind::Other, message "Directory is full". -/
  | dirFull
  /-- A Rust panic: out-of-range slice indexing or similar. -/
  | crash
deriving DecidableEq, Repr

/-- The ADF image: struct ADF { data: Vec<u8>, bitmap: Vec<bool> } of
disk.rs.  In the bitmap, true means free, as in the Rust code. -/
structure ADF where
  data : List Nat
  bitmap : List Bool
deriving DecidableEq, Repr

/-- ADF_SECTOR_SIZE of consts.rs. -/
def ADF_SECTOR_SIZE : Nat := 512

/-- ADF_TRACK_SIZE of consts.rs (11 sectors per track). -/
def ADF_TRACK_SIZE : Nat := 11 * ADF_SECTOR_SIZE

/-- ADF_NUM_TRACKS of consts.rs (80 tracks, 2 sides). -/
def ADF_NUM_TRACKS : Nat := 80 * 2

/-- ADF_NUM_SECTORS of consts.rs. -/
def ADF_NUM_SECTORS : Nat := 1760

/-- ROOT_BLOCK of consts.rs. -/
def ROOT_BLOCK : Nat := 880

/-- ADF::read_sector of disk.rs: returns the 512-byte slice
data[sector*512 .. sector*512+512].  The Rust function returns a plain
slice and panics when the range is out of bounds, hence the crash error
in the embedding. -/
def read_sector (img : ADF) (sector : Nat) : Except AErr (List Nat) :=
  if sector * ADF_SECTOR_SIZE + ADF_SECTOR_SIZE ≤ img.data.length then
    .ok ((img.data.drop (sector * ADF_SECTOR_SIZE)).take ADF_SECTOR_SIZE)
  else
    .error .crash

/-- ADF::write_sector of disk.rs: rejects payloads that are not exactly
512 bytes with ErrorKind::InvalidInput, then copies the payload over
data[sector*512 .. sector*512+512] (panicking when that range is out of
bounds). -/
def write_sector (img : ADF) (sector : Nat) (d : List Nat) : Except AErr ADF :=
  if d.length ≠ ADF_SECTOR_SIZE then
    .error .badLength
  else if sector * ADF_SECTOR_SIZE + ADF_SECTOR_SIZE ≤ img.data.length then
    .ok { img with
          data := img.data.take (sector * ADF_SECTOR_SIZE) ++ d ++
                  img.data.drop (sector * ADF_SECTOR_SIZE + ADF_SECTOR_SIZE) }
  else
    .error .crash

/-- ADF::from_bytes of disk.rs: accepts exactly ADF_TRACK_SIZE *
ADF_NUM_TRACKS = 901120 bytes, and initializes the in-memory bitmap to
vec![true; ADF_TRACK_SIZE * ADF_NUM_TRACKS] - one boolean per BYTE of the
image, all free, without reading the on-disk bitmap block. -/
def from_bytes (d : List Nat) : Except AErr ADF :=
  if d.length = ADF_TRACK_SIZE * ADF_NUM_TRACKS then
    .ok { data := d, bitmap := List.replicate (ADF_TRACK_SIZE * ADF_NUM_TRACKS) true }
  else
    .error .invalidData

end Adflib

namespace Adflib

/-! ### Generic helper lemmas about sector reads and writes -/

theorem read_sector_ok_length {img : ADF} {s : Nat} {bd : List Nat}
    (h : read_sector img s = .ok bd) : bd.length = 512 := by
  simp only [read_sector, ADF_SECTOR_SIZE] at h
  split at h
  · cases h
    simp only [List.length_take, List.length_drop]
    omega
  · cases h

theorem read_sector_composite (P R T : List Nat) (bm : List Bool) (k : Nat)
    (hP : P.length = k * 512) (hR : R.length = 512) :
    read_sector ⟨P ++ R ++ T, bm⟩ k = .ok R := by
  have hdrop : (P ++ (R ++ T)).drop (k * 512) = R ++ T := by
    rw [← hP, List.drop_left]
  have htake : (R ++ T).take 512 = R := by
    rw [← hR, List.take_left]
  simp only [read_sector, ADF_SECTOR_SIZE, List.append_assoc]
  rw [if_pos (by simp [hP, hR]), hdrop, htake]

theorem write_sector_composite (P R T d : List Nat) (bm : List Bool) (k : Nat)
    (hP : P.length = k * 512) (hR : R.length = 512) (hd : d.length = 512) :
    write_sector ⟨P ++ R ++ T, bm⟩ k d = .ok ⟨P ++ d ++ T, bm⟩ := by
  have htake : (P ++ (R ++ T)).take (k * 512) = P := by
    rw [← hP]; exact List.take_left P (R ++ T)
  have hdrop : (P ++ (R ++ T)).drop (k * 512 + 512) = T := by
    have h1 : k * 512 + 512 = P.length + R.length := by omega
    rw [h1, List.drop_append]
    exact List.drop_left R T
  simp only [write_sector, ADF_SECTOR_SIZE, List.append_assoc]
  rw [if_neg (by omega), if_pos (by simp [hP, hR])]
  rw [htake, hdrop]

theorem getD_replicate_eq {α : Type} (n i : Nat) (a d : α) :
    (List.replicate n a).getD i d = if i < n then a else d := by
  simp [List.getD, List.getElem?_replicate]
  split <;> simp

theorem getD_replicate_false (n i : Nat) :
    (List.replicate n false).getD i false = false := by
  rw [getD_replicate_eq]
  split <;> rfl

theorem getD_replicate_zero (n i : Nat) :
    (List.replicate n (0:Nat)).getD i 0 = 0 := by
  rw [getD_replicate_eq]
  split <;> rfl

theorem u32At_replicate_zero (m off : Nat) : u32At (List.replicate m 0) off = 0 := by
  simp only [u32At, u32word, getD_replicate_zero]

/-- The all-zero standard-size image used by several witnesses below. -/
def imgFull : ADF := ⟨List.replicate 901120 0, []⟩

theorem imgFull_data_length : imgFull.data.length = 901120 :=
  List.length_replicate 901120 0

/-! ### C3: sector access bounds -/

/-- C3 (amended): on a standard 901120-byte image, read_sector and
write_sector touch the image exactly when the sector index is below 1760;
an out-of-range index makes the Rust code panic on slice indexing (the
crash error of the embedding) instead of returning an OutOfRange io error,
and write_sector rejects any payload that is not exactly 512 bytes with an
InvalidInput error before touching the image, even for out-of-range
sectors. -/
theorem sector_io_bounds (img : ADF) (i : Nat) (d : List Nat)
    (hlen : img.data.length = 901120) :
    (i < 1760 → read_sector img i = .ok ((img.data.drop (i * 512)).take 512)) ∧
    (1760 ≤ i → read_sector img i = .error .crash) ∧
    (d.length ≠ 512 → write_sector img i d = .error .badLength) ∧
    (d.length = 512 → 1760 ≤ i → write_sector img i d = .error .crash) ∧
    (d.length = 512 → i < 1760 →
      write_sector img i d =
        .ok { img with data := img.data.take (i * 512) ++ d ++ img.data.drop (i * 512 + 512) }) := by
  simp only [read_sector, write_sector, ADF_SECTOR_SIZE]
  refine ⟨fun h => ?_, fun h => ?_, fun h => ?_, fun h1 h2 => ?_, fun h1 h2 => ?_⟩
  · rw [if_pos (by omega)]
  · rw [if_neg (by omega)]
  · rw [if_pos h]
  · rw [if_neg (by omega), if_neg (by omega)]
  · rw [if_neg (by omega), if_pos (by omega)]

/-- Witness for sector_io_bounds at a concrete zero-filled image. -/
theorem sector_io_bounds_witness :
    (5 < 1760 → read_sector imgFull 5 =
      .ok ((imgFull.data.drop (5 * 512)).take 512)) ∧
    (1760 ≤ 5 → read_sector imgFull 5 = .error .crash) ∧
    ((List.replicate 512 (0:Nat)).length ≠ 512 →
      write_sector imgFull 5 (List.replicate 512 0) = .error .badLength) ∧
    ((List.replicate 512 (0:Nat)).length = 512 → 1760 ≤ 5 →
      write_sector imgFull 5 (List.replicate 512 0) = .error .crash) ∧
    ((List.replicate 512 (0:Nat)).length = 512 → 5 < 1760 →
      write_sector imgFull 5 (List.replicate 512 0) =
        .ok { imgFull with
              data := imgFull.data.take (5 * 512) ++ List.replicate 512 0 ++
                      imgFull.data.drop (5 * 512 + 512) }) :=
  sector_io_bounds imgFull 5 (List.replicate 512 0) imgFull_data_length

/-- C3 counterexample: at sector 1760 the claimed OutOfRange io error is
never produced; read_sector (which in Rust returns a bare slice and cannot
return an error at all) and write_sector with a well-sized payload both
panic on slice indexing (crash), and the only io error write_sector can
return is the payload-length error. -/
theorem sector_io_no_out_of_range_error :
    read_sector imgFull 1760 = .error .crash ∧
    write_sector imgFull 1760 (List.replicate 512 0) = .error .crash := by
  constructor
  · simp only [read_sector, ADF_SECTOR_SIZE]
    rw [if_neg (by rw [imgFull_data_length]; omega)]
  · simp only [write_sector, ADF_SECTOR_SIZE]
    rw [if_neg (by rw [List.length_replicate]; omega),
        if_neg (by rw [imgFull_data_length]; omega)]

/-! ### C4: the bitmap mirror created by from_bytes -/

/-- Modelled from the spec: the decode of the allocation bit for sector i
from the on-disk bitmap block at sector 881 ("0..3 checksum; 4..511 bit
array; bit = 1 means FREE; within each 32-bit long, LSB corresponds to the
lowest block number in that long's range; bytes are big-endian; covered
range starts at sector 2").  No code under src/ performs this decode on
load, so the claim's decode side is taken from the spec's words. -/
def spec_bitmap_free (data : List Nat) (i : Nat) : Bool :=
  (u32At ((data.drop (881 * 512)).take 512) (4 + 4 * ((i - 2) / 32)) >>> ((i - 2) % 32)) % 2 = 1

/-- C4 (amended): from_bytes accepts exactly 901120-byte buffers
(from_file reads exactly that many bytes and delegates to it) and sets the
in-memory bitmap mirror to 901120 entries - one per byte, not one per
sector - all true (free), without decoding the on-disk bitmap block at
sector 881. -/
theorem from_bytes_spec (d : List Nat) :
    (d.length = 901120 →
      from_bytes d = .ok ⟨d, List.replicate 901120 true⟩) ∧
    (d.length ≠ 901120 → from_bytes d = .error .invalidData) := by
  have h : ADF_TRACK_SIZE * ADF_NUM_TRACKS = 901120 := by
    simp [ADF_TRACK_SIZE, ADF_NUM_TRACKS, ADF_SECTOR_SIZE]
  constructor
  · intro hd
    unfold from_bytes
    rw [if_pos (by omega), h]
  · intro hd
    unfold from_bytes
    rw [if_neg (by omega)]

/-- Witness for from_bytes_spec on the all-zero image. -/
theorem from_bytes_spec_witness :
    from_bytes (List.replicate 901120 0) =
      .ok ⟨List.replicate 901120 0, List.replicate 901120 true⟩ :=
  (from_bytes_spec (List.replicate 901120 0)).1 (List.length_replicate 901120 0)

/-- C4 counterexample: on the all-zero 901120-byte buffer, the bitmap
mirror produced by from_bytes has 901120 entries (not 1760), and it marks
sector 2 free (true) even though the on-disk bitmap block at sector 881
(all zero) marks every covered sector allocated, so the on-disk bitmap is
not authoritative on load. -/
theorem from_bytes_bitmap_not_from_disk :
    (from_bytes (List.replicate 901120 0)).map (fun a => a.bitmap.length) = .ok 901120 ∧
    (901120 : Nat) ≠ 1760 ∧
    (from_bytes (List.replicate 901120 0)).map (fun a => a.bitmap.getD 2 false) = .ok true ∧
    spec_bitmap_free (List.replicate 901120 0) 2 = false := by
  have hfb := from_bytes_spec_witness
  refine ⟨?_, by omega, ?_, ?_⟩
  · rw [hfb]
    exact congrArg Except.ok (List.length_replicate 901120 true)
  · rw [hfb]
    show Except.ok ((List.replicate 901120 true).getD 2 false) = Except.ok true
    rw [getD_replicate_eq, if_pos (by omega)]
  · simp only [spec_bitmap_free]
    rw [List.drop_replicate, List.take_replicate, u32At_replicate_zero]
    rfl


/-! ### C1: the bitmap-block checksum -/

/-- ADF::calculate_checksum of disk.rs applied chunkwise: the sum of the
big-endian 32-bit words of the byte list, where a trailing chunk shorter
than 4 bytes is padded with zeros (chunk.get(i).copied().unwrap_or(0)).
The Rust accumulator adds with wrapping_add; the reduction modulo 2^32 is
applied in calculate_checksum below, which is equivalent. -/
def checksumSum : List Nat → Nat
  | [] => 0
  | [b0] => u32word b0 0 0 0
  | [b0, b1] => u32word b0 b1 0 0
  | [b0, b1, b2] => u32word b0 b1 b2 0
  | b0 :: b1 :: b2 :: b3 :: rest => u32word b0 b1 b2 b3 + checksumSum rest

/-- ADF::calculate_checksum of disk.rs: the bitwise NOT (!checksum in
Rust, i.e. 2^32 - 1 - x) of the wrapping word sum. -/
def calculate_checksum (data : List Nat) : Nat :=
  4294967295 - checksumSum data % 4294967296

/-- The 512-byte bitmap block assembled by ADF::update_bitmap_blocks
before the checksum is written: starting from vec![0u8; 512], for every
block index in 2..1760 the bit 7 - (index % 8) of byte index / 8 is set
when the in-memory bitmap marks the block free and cleared otherwise
(!(1 << k) on a u8 is 255 XOR (1 << k)). -/
def bitmapBlockOf (bitmap : List Bool) : List Nat :=
  (List.range' 2 1758).foldl
    (fun blk bi =>
      if bitmap.getD bi false then
        blk.set (bi / 8) (blk.getD (bi / 8) 0 ||| 1 <<< (7 - bi % 8))
      else
        blk.set (bi / 8) (blk.getD (bi / 8) 0 &&& (255 ^^^ 1 <<< (7 - bi % 8))))
    (List.replicate 512 0)

/-- ADF::update_bitmap_blocks of disk.rs: assemble the bitmap block,
compute the checksum of the whole block (checksum_offset = 0, so the
slice bitmap_block[checksum_offset..] is the entire block, whose first
word is the just-assembled free bits of blocks 2..31), overwrite bytes
0..4 with the big-endian checksum, and write the block to sector
ROOT_BLOCK + 1 = 881.  Indexing self.bitmap[block_index] panics when the
mirror has fewer than 1760 entries. -/
def update_bitmap_blocks (img : ADF) : Except AErr ADF :=
  if 1760 ≤ img.bitmap.length then
    let blk := bitmapBlockOf img.bitmap
    let blk2 := setBytes blk 0 (be32 (calculate_checksum (blk.drop 0)))
    write_sector img (ROOT_BLOCK + 1) blk2
  else
    .error .crash

theorem checksumSum_cons4 (a b c d : Nat) (rest : List Nat) :
    checksumSum (a :: b :: c :: d :: rest) = u32word a b c d + checksumSum rest := rfl

theorem checksumSum_split (blk : List Nat) (h : 4 ≤ blk.length) :
    checksumSum blk = u32At blk 0 + checksumSum (blk.drop 4) := by
  match blk with
  | a :: b :: c :: d :: rest => rfl
  | [] => simp at h
  | [a] => simp at h
  | [a, b] => simp at h
  | [a, b, c] => simp at h

theorem setBytes_zero (blk src : List Nat) :
    setBytes blk 0 src = src ++ blk.drop src.length := by
  simp [setBytes]

theorem u32word_be32 (v : Nat) (h : v < 4294967296) :
    u32word (v / 16777216 % 256) (v / 65536 % 256) (v / 256 % 256) (v % 256) = v := by
  simp only [u32word]
  omega

theorem foldl_length_preserved {A : Type} (f : List Nat → A → List Nat)
    (hf : ∀ blk a, (f blk a).length = blk.length) :
    ∀ (r : List A) (blk : List Nat), (r.foldl f blk).length = blk.length := by
  intro r
  induction r with
  | nil => intro blk; rfl
  | cons a rest ih =>
    intro blk
    rw [List.foldl_cons, ih, hf]

theorem bitmapBlockOf_length (bitmap : List Bool) :
    (bitmapBlockOf bitmap).length = 512 := by
  unfold bitmapBlockOf
  rw [foldl_length_preserved]
  · exact List.length_replicate 512 0
  · intro blk a
    split <;> rw [List.length_set]

theorem checksumSum_be32_append (v : Nat) (rest : List Nat) (h : v < 4294967296) :
    checksumSum (be32 v ++ rest) = v + checksumSum rest := by
  have hc : be32 v ++ rest =
      v / 16777216 % 256 :: v / 65536 % 256 :: v / 256 % 256 :: v % 256 :: rest := rfl
  rw [hc, checksumSum_cons4, u32word_be32 v h]

/-- The bitmap block as written by update_bitmap_blocks: the assembled
free-bit block with its first four bytes overwritten by the big-endian
checksum. -/
def bitmapBlockWritten (bitmap : List Bool) : List Nat :=
  setBytes (bitmapBlockOf bitmap) 0 (be32 (calculate_checksum (bitmapBlockOf bitmap)))

theorem bitmapBlockWritten_eq (bitmap : List Bool) :
    bitmapBlockWritten bitmap =
      be32 (calculate_checksum (bitmapBlockOf bitmap)) ++ (bitmapBlockOf bitmap).drop 4 := by
  unfold bitmapBlockWritten
  rw [setBytes_zero]
  norm_num [be32]

theorem bitmapBlockWritten_length (bitmap : List Bool) :
    (bitmapBlockWritten bitmap).length = 512 := by
  rw [bitmapBlockWritten_eq]
  simp only [be32, List.length_append, List.length_cons, List.length_nil, List.length_drop,
    bitmapBlockOf_length]

/-- C1 (amended): the checksum written by update_bitmap_blocks is the
bitwise complement (not the two's-complement negation) of the wrapping
sum of the 128 words of the block as assembled, and the sum it
complements still includes the pre-overwrite first word (the free bits of
blocks 2..31), which the checksum then destroys.  Consequently, for every
image the word sum of the written block plus that pre-overwrite first
word is congruent to 2^32 - 1 modulo 2^32 - in particular the sum itself
is 2^32 - 1, not 0, whenever blocks 2..31 are all marked used. -/
theorem update_bitmap_blocks_spec (img : ADF)
    (hb : 1760 ≤ img.bitmap.length) (hd : img.data.length = 901120) :
    update_bitmap_blocks img =
      .ok { img with data := img.data.take 451072 ++ bitmapBlockWritten img.bitmap ++
                             img.data.drop 451584 } ∧
    read_sector { img with data := img.data.take 451072 ++ bitmapBlockWritten img.bitmap ++
                                   img.data.drop 451584 } 881
      = .ok (bitmapBlockWritten img.bitmap) ∧
    (checksumSum (bitmapBlockWritten img.bitmap) + u32At (bitmapBlockOf img.bitmap) 0)
        % 4294967296 = 4294967295 := by
  have hBlen : (bitmapBlockOf img.bitmap).length = 512 := bitmapBlockOf_length _
  have hWlen : (bitmapBlockWritten img.bitmap).length = 512 := bitmapBlockWritten_length _
  have hcslt : calculate_checksum (bitmapBlockOf img.bitmap) < 4294967296 := by
    unfold calculate_checksum; omega
  refine ⟨?_, ?_, ?_⟩
  · have h1 : update_bitmap_blocks img = write_sector img 881 (bitmapBlockWritten img.bitmap) := by
      unfold update_bitmap_blocks bitmapBlockWritten
      rw [if_pos hb]
      rfl
    rw [h1]
    simp only [write_sector, ADF_SECTOR_SIZE]
    rw [if_neg (by rw [hWlen]; omega), if_pos (by omega)]
  · have h2 := read_sector_composite (img.data.take 451072) (bitmapBlockWritten img.bitmap)
      (img.data.drop 451584) img.bitmap 881 (by rw [List.length_take]; omega) hWlen
    exact h2
  · rw [bitmapBlockWritten_eq, checksumSum_be32_append _ _ hcslt]
    have hsplit := checksumSum_split (bitmapBlockOf img.bitmap) (by omega)
    have hmod := Nat.div_add_mod (checksumSum (bitmapBlockOf img.bitmap)) 4294967296
    unfold calculate_checksum
    omega


/-- C1 (amended, claim theorem): restatement of update_bitmap_blocks_spec;
see that lemma for the content.  The original claim (word sum congruent to
0, checksum = two-complement negation) is refuted by the counterexample
below; what holds is the bitwise-complement variant. -/
theorem update_bitmap_blocks_word_sum (img : ADF)
    (hb : 1760 ≤ img.bitmap.length) (hd : img.data.length = 901120) :
    update_bitmap_blocks img =
      .ok { img with data := img.data.take 451072 ++ bitmapBlockWritten img.bitmap ++
                             img.data.drop 451584 } ∧
    read_sector { img with data := img.data.take 451072 ++ bitmapBlockWritten img.bitmap ++
                                   img.data.drop 451584 } 881
      = .ok (bitmapBlockWritten img.bitmap) ∧
    (checksumSum (bitmapBlockWritten img.bitmap) + u32At (bitmapBlockOf img.bitmap) 0)
        % 4294967296 = 4294967295 :=
  update_bitmap_blocks_spec img hb hd

/-- The image used for the C1 counterexample and witness: all-zero data,
every block marked used in the mirror. -/
def imgC1 : ADF := ⟨List.replicate 901120 0, List.replicate 1760 false⟩

/-- Witness for update_bitmap_blocks_word_sum at imgC1. -/
theorem update_bitmap_blocks_word_sum_witness :
    update_bitmap_blocks imgC1 =
      .ok { imgC1 with data := imgC1.data.take 451072 ++ bitmapBlockWritten imgC1.bitmap ++
                              imgC1.data.drop 451584 } ∧
    read_sector { imgC1 with data := imgC1.data.take 451072 ++ bitmapBlockWritten imgC1.bitmap ++
                                     imgC1.data.drop 451584 } 881
      = .ok (bitmapBlockWritten imgC1.bitmap) ∧
    (checksumSum (bitmapBlockWritten imgC1.bitmap) + u32At (bitmapBlockOf imgC1.bitmap) 0)
        % 4294967296 = 4294967295 :=
  update_bitmap_blocks_word_sum imgC1
    (le_of_eq (List.length_replicate 1760 false).symm)
    (List.length_replicate 901120 0)

theorem set_replicate_self {α : Type} (a : α) :
    ∀ (n i : Nat), (List.replicate n a).set i a = List.replicate n a := by
  intro n
  induction n with
  | zero => intro i; rfl
  | succ n ih =>
    intro i
    cases i with
    | zero => simp [List.replicate_succ]
    | succ i =>
      rw [List.replicate_succ]
      show a :: (List.replicate n a).set i a = _
      rw [ih i, ← List.replicate_succ]

theorem foldl_fixed {A : Type} (f : List Nat → A → List Nat) (blk : List Nat)
    (h : ∀ a, f blk a = blk) : ∀ (r : List A), r.foldl f blk = blk := by
  intro r
  induction r with
  | nil => rfl
  | cons a rest ih => rw [List.foldl_cons, h a, ih]

theorem bitmapBlockOf_all_false :
    bitmapBlockOf (List.replicate 1760 false) = List.replicate 512 0 := by
  unfold bitmapBlockOf
  apply foldl_fixed
  intro bi
  rw [getD_replicate_false]
  rw [if_neg (by simp)]
  rw [getD_replicate_zero, Nat.zero_and, set_replicate_self]

/-- The image imgC1 after update_bitmap_blocks has run. -/
def imgC1w : ADF :=
  { imgC1 with data := imgC1.data.take 451072 ++ bitmapBlockWritten imgC1.bitmap ++
                       imgC1.data.drop 451584 }

/-- C1 counterexample: on the all-zero image with every block marked used,
update_bitmap_blocks succeeds and the block it wrote to sector 881 has
word sum 0xFFFFFFFF modulo 2^32, not 0, because the Rust code uses !sum
(bitwise NOT) instead of the two's-complement negation -sum. -/
theorem bitmap_checksum_sum_all_ones :
    update_bitmap_blocks imgC1 = .ok imgC1w ∧
    read_sector imgC1w 881 = .ok (bitmapBlockWritten imgC1.bitmap) ∧
    checksumSum (bitmapBlockWritten imgC1.bitmap) % 4294967296 = 4294967295 ∧
    (4294967295 : Nat) ≠ 0 := by
  obtain ⟨hupd, hread, hsum⟩ := update_bitmap_blocks_spec imgC1
    (le_of_eq (List.length_replicate 1760 false).symm)
    (List.length_replicate 901120 0)
  have hzero : bitmapBlockOf imgC1.bitmap = List.replicate 512 0 := bitmapBlockOf_all_false
  rw [hzero, u32At_replicate_zero] at hsum
  exact ⟨hupd, hread, by omega, by omega⟩


/-! ### C2: read_file_contents -/

/-- The while loop of the block-type-2 branch of ADF::read_file_contents
in disk.rs: while current != 0 and fewer than file_size bytes are
accumulated, read the sector, append min(512 - 24, remaining) bytes
starting at offset 24, and follow the big-endian u32 at offset 0 of the
data block as the next pointer. -/
def ofsLoop (img : ADF) (fs : Nat) (cur : Nat) (acc : List Nat) : Except AErr (List Nat) :=
  if h : cur ≠ 0 ∧ acc.length < fs then
    match hdb : read_sector img cur with
    | .error e => .error e
    | .ok db =>
      ofsLoop img fs (u32At db 0)
        (acc ++ (db.drop 24).take (min (512 - 24) (fs - acc.length)))
  else
    .ok acc
termination_by fs - acc.length
decreasing_by
  have hdblen := read_sector_ok_length hdb
  simp only [List.length_append, List.length_take, List.length_drop, hdblen]
  omega

/-- The while loop of the block-type-0 branch of ADF::read_file_contents:
append min(512, remaining) bytes from offset 0 and follow the u32 at
offset 0. -/
def ffsLoop (img : ADF) (fs : Nat) (cur : Nat) (acc : List Nat) : Except AErr (List Nat) :=
  if h : cur ≠ 0 ∧ acc.length < fs then
    match hdb : read_sector img cur with
    | .error e => .error e
    | .ok db =>
      ffsLoop img fs (u32At db 0) (acc ++ db.take (min 512 (fs - acc.length)))
  else
    .ok acc
termination_by fs - acc.length
decreasing_by
  have hdblen := read_sector_ok_length hdb
  simp only [List.length_append, List.length_take, hdblen]
  omega

/-- ADF::read_file_contents of disk.rs.  It dispatches on the FIRST BYTE
of the header sector (2: header-style chain with payload at offset 24; 0:
raw chain with the whole sector as payload; anything else is
InvalidData), reads file_size from bytes 4..8 and the first data pointer
from bytes 16..20, and never verifies block type, header key, sequence
numbers or stored data_size fields of visited blocks; only the type-2
branch checks the accumulated length against file_size at the end
(UnexpectedEof "File size mismatch"). -/
def read_file_contents (img : ADF) (block : Nat) : Except AErr (List Nat) := do
  let bd ← read_sector img block
  match bd.getD 0 0 with
  | 2 => do
    let c ← ofsLoop img (u32At bd 4) (u32At bd 16) []
    if c.length ≠ u32At bd 4 then
      .error .sizeMismatch
    else
      .ok c
  | 0 =>
    ffsLoop img (u32At bd 4) (u32At bd 16) (bd.drop 24)
  | _ => .error .invalidData

theorem ofsLoop_step (img : ADF) (fs cur : Nat) (acc db : List Nat)
    (hc : cur ≠ 0) (hl : acc.length < fs)
    (hdb : read_sector img cur = .ok db) :
    ofsLoop img fs cur acc =
      ofsLoop img fs (u32At db 0)
        (acc ++ (db.drop 24).take (min (512 - 24) (fs - acc.length))) := by
  rw [ofsLoop]
  rw [dif_pos ⟨hc, hl⟩]
  split
  · next e heq => rw [hdb] at heq; cases heq
  · next db2 heq => rw [hdb] at heq; cases heq; rfl

theorem ofsLoop_exit (img : ADF) (fs cur : Nat) (acc : List Nat)
    (h : ¬(cur ≠ 0 ∧ acc.length < fs)) :
    ofsLoop img fs cur acc = .ok acc := by
  rw [ofsLoop, dif_neg h]

theorem read_file_contents_header2 (img : ADF) (block : Nat) (bd : List Nat)
    (hbd : read_sector img block = .ok bd) (ht : bd.getD 0 0 = 2) :
    read_file_contents img block =
      (ofsLoop img (u32At bd 4) (u32At bd 16) []).bind
        (fun c => if c.length ≠ u32At bd 4 then .error .sizeMismatch else .ok c) := by
  unfold read_file_contents
  rw [hbd]
  show (match bd.getD 0 0 with
    | 2 => (ofsLoop img (u32At bd 4) (u32At bd 16) []).bind
        (fun c => if c.length ≠ u32At bd 4 then .error .sizeMismatch else .ok c)
    | 0 => ffsLoop img (u32At bd 4) (u32At bd 16) (bd.drop 24)
    | _ => .error .invalidData) = _
  rw [ht]

/-- C2 (amended): read_file_contents performs none of the per-block
verifications the claim lists (type == 8, header_key, sequence numbers,
stored data_size); it follows the u32 at offset 0 of each data block as
the next pointer and computes the chunk size itself.  What does hold of
the type-2 branch is the final length check: whenever it returns Ok, the
returned contents have exactly file_size = bytes 4..8 of the header
bytes; a chain that ends early yields the UnexpectedEof size-mismatch
error, and out-of-range sector references panic. -/
theorem read_file_contents_ok_length (img : ADF) (block : Nat) (bd c : List Nat)
    (hbd : read_sector img block = .ok bd) (ht : bd.getD 0 0 = 2)
    (hok : read_file_contents img block = .ok c) :
    c.length = u32At bd 4 := by
  rw [read_file_contents_header2 img block bd hbd ht] at hok
  cases hr : ofsLoop img (u32At bd 4) (u32At bd 16) [] with
  | error e => rw [hr] at hok; cases hok
  | ok c0 =>
    rw [hr] at hok
    by_cases hlen : c0.length = u32At bd 4
    · have : (Except.ok c0 : Except AErr (List Nat)) = Except.ok c := by
        simpa [Except.bind, hlen] using hok
      cases this
      exact hlen
    · have : (Except.error .sizeMismatch : Except AErr (List Nat)) = Except.ok c := by
        simpa [Except.bind, hlen] using hok
      cases this

/-- Data-block sector of the C2 counterexample image: next pointer 0,
payload bytes 7, 9 at offset 24; its type field (bytes 0..4) is 0, its
header-key field (bytes 4..8) is 0 and its sequence field (bytes 8..12)
is 0. -/
def dblkC2 : List Nat := List.replicate 24 0 ++ [7, 9] ++ List.replicate 486 0

/-- File-header sector of the C2 counterexample image: first byte 2,
file size 2 (bytes 4..8), first data block 1 (bytes 16..20). -/
def hdrC2 : List Nat :=
  2 :: (List.replicate 3 0 ++ [0, 0, 0, 2] ++ List.replicate 8 0 ++ [0, 0, 0, 1] ++
        List.replicate 492 0)

/-- The C2 counterexample image: sector 0 empty, sector 1 the data block,
sector 2 the file header. -/
def imgC2 : ADF := ⟨List.replicate 512 0 ++ dblkC2 ++ hdrC2, []⟩

theorem read_sector_composite2 (P R : List Nat) (bm : List Bool) (k : Nat)
    (hP : P.length = k * 512) (hR : R.length = 512) :
    read_sector ⟨P ++ R, bm⟩ k = .ok R := by
  have hdrop : (P ++ R).drop (k * 512) = R := by
    rw [← hP, List.drop_left]
  have htake : R.take 512 = R := by
    rw [← hR, List.take_length]
  simp only [read_sector, ADF_SECTOR_SIZE]
  rw [if_pos (by simp [hP, hR]), hdrop, htake]

theorem imgC2_sector1 : read_sector imgC2 1 = .ok dblkC2 := by
  have h := read_sector_composite (List.replicate 512 0) dblkC2 hdrC2 [] 1
    (by decide) (by decide)
  exact h

theorem imgC2_sector2 : read_sector imgC2 2 = .ok hdrC2 := by
  have h := read_sector_composite2 (List.replicate 512 0 ++ dblkC2) hdrC2 [] 2
    (by decide) (by decide)
  exact h

theorem rfc_imgC2 : read_file_contents imgC2 2 = .ok [7, 9] := by
  rw [read_file_contents_header2 imgC2 2 hdrC2 imgC2_sector2 (by decide)]
  have e4 : u32At hdrC2 4 = 2 := by decide
  have e16 : u32At hdrC2 16 = 1 := by decide
  rw [e4, e16]
  rw [ofsLoop_step imgC2 2 1 [] dblkC2 (by omega) (by decide) imgC2_sector1]
  have echunk : ([] : List Nat) ++ (dblkC2.drop 24).take (min (512 - 24) (2 - ([] : List Nat).length))
      = [7, 9] := by decide
  have enext : u32At dblkC2 0 = 0 := by decide
  rw [echunk, enext]
  rw [ofsLoop_exit imgC2 2 0 [7, 9] (by simp)]
  rfl

/-- C2 counterexample: on imgC2 the data block at sector 1 violates every
OFS chain invariant of the claim - its type field is 0 rather than 8, its
header key is 0 rather than 2, its sequence number is 0 rather than 1 -
yet read_file_contents succeeds and returns the two payload bytes instead
of failing with a corrupt-chain error. -/
theorem read_file_contents_no_chain_checks :
    read_file_contents imgC2 2 = .ok [7, 9] ∧
    read_sector imgC2 1 = .ok dblkC2 ∧
    u32At dblkC2 0 ≠ 8 ∧ u32At dblkC2 4 ≠ 2 ∧ u32At dblkC2 8 ≠ 1 :=
  ⟨rfc_imgC2, imgC2_sector1, by decide, by decide, by decide⟩

/-- Witness for read_file_contents_ok_length at imgC2. -/
theorem read_file_contents_ok_length_witness :
    ([7, 9] : List Nat).length = u32At hdrC2 4 :=
  read_file_contents_ok_length imgC2 2 hdrC2 [7, 9] imgC2_sector2 (by decide) rfc_imgC2


/-- Decidable equality for Except values, used to evaluate the embedded
functions on concrete inputs. -/
instance {E A : Type} [DecidableEq E] [DecidableEq A] : DecidableEq (Except E A) := fun x y =>
  match x, y with
  | .ok a, .ok b =>
    if h : a = b then isTrue (by rw [h]) else isFalse (by intro hc; cases hc; exact h rfl)
  | .error e, .error f =>
    if h : e = f then isTrue (by rw [h]) else isFalse (by intro hc; cases hc; exact h rfl)
  | .ok a, .error e => isFalse (by intro hc; cases hc)
  | .error e, .ok a => isFalse (by intro hc; cases hc)

/-- bind on a successful Except value reduces to the continuation. -/
theorem bind_ok {E A B : Type} (a : A) (f : A → Except E B) :
    (Except.ok a >>= f) = f a := rfl

theorem bind_err {E A B : Type} (e : E) (f : A → Except E B) :
    (Except.error e >>= f) = Except.error e := rfl

/-! ### C5: directory listing -/

/-- Modelled from the spec: DIR_ENTRY_START_INDEX, used by disk.rs but
absent from the consts.rs snapshot under src/.  The spec fixes the hash
table of a directory block as "24..311 hash table: 72 big-endian sector
numbers", i.e. 32-bit words 6 through 77. -/
def DIR_ENTRY_START_INDEX : Nat := 6

/-- Modelled from the spec: DIR_ENTRY_END_INDEX, see
DIR_ENTRY_START_INDEX. -/
def DIR_ENTRY_END_INDEX : Nat := 77

/-- The word indices (DIR_ENTRY_START_INDEX..=DIR_ENTRY_END_INDEX).rev()
traversed by list_directory and the other directory routines. -/
def revSlots : List Nat :=
  (List.range' DIR_ENTRY_START_INDEX (DIR_ENTRY_END_INDEX + 1 - DIR_ENTRY_START_INDEX)).reverse

/-- FileInfo of disk.rs; the name is kept as raw bytes and the
SystemTime creation date as seconds since the epoch. -/
structure FileInfo where
  name : List Nat
  size : Nat
  is_dir : Bool
  protection : Nat
  creation_date : Nat
deriving DecidableEq, Repr

/-- u32::checked_mul. -/
def checkedMul (a b : Nat) : Option Nat :=
  if a * b < 4294967296 then some (a * b) else none

/-- u32::checked_add. -/
def checkedAdd (a b : Nat) : Option Nat :=
  if a + b < 4294967296 then some (a + b) else none

/-- u32::checked_div. -/
def checkedDiv (a b : Nat) : Option Nat :=
  if b = 0 then none else some (a / b)

/-- ADF::read_file_header of disk.rs: name length at byte 432, name bytes
at 433.., size at 4..8, is_dir iff byte 0 equals 2, protection at
436..440, and the creation date assembled from days/mins/ticks at
440/444/448 with u32 checked arithmetic falling back to the epoch.  A
name length above 79 makes the Rust slice indexing panic. -/
def read_file_header (img : ADF) (block : Nat) : Except AErr FileInfo := do
  let bd ← read_sector img block
  let name_len := bd.getD 432 0
  if 433 + name_len ≤ 512 then
    let days := u32At bd 440
    let mins := u32At bd 444
    let ticks := u32At bd 448
    let creation_date :=
      match ((checkedMul days 86400).bind
              (fun d => checkedAdd d ((checkedMul mins 60).getD 0))).bind
              (fun t => checkedAdd t ((checkedDiv ticks 50).getD 0)) with
      | some secs => secs
      | none => 0
    .ok { name := (bd.drop 433).take name_len, size := u32At bd 4,
          is_dir := bd.getD 0 0 = 2, protection := u32At bd 436,
          creation_date := creation_date }
  else
    .error .crash

/-- The filter_map iterator of ADF::list_directory, collected: for each
hash-table word in reverse index order, yield read_file_header of the
pointed-to block when the word is non-zero.  No hash-collision chain is
followed. -/
def goListDir (img : ADF) (bd : List Nat) : List Nat → Except AErr (List FileInfo)
  | [] => .ok []
  | i :: rest =>
    if u32At bd (i * 4) ≠ 0 then do
      let fi ← read_file_header img (u32At bd (i * 4))
      let l ← goListDir img bd rest
      pure (fi :: l)
    else
      goListDir img bd rest

/-- ADF::list_directory of disk.rs (with the iterator collected, as
list_root_directory does). -/
def list_directory (img : ADF) (block : Nat) : Except AErr (List FileInfo) := do
  let bd ← read_sector img block
  goListDir img bd revSlots

theorem goListDir_length (img : ADF) (bd : List Nat) :
    ∀ (slots : List Nat) (l : List FileInfo), goListDir img bd slots = .ok l →
      l.length = (slots.filter (fun i => decide (u32At bd (i * 4) ≠ 0))).length := by
  intro slots
  induction slots with
  | nil =>
    intro l h
    cases h
    rfl
  | cons i rest ih =>
    intro l h
    rw [goListDir] at h
    by_cases hs : u32At bd (i * 4) ≠ 0
    · rw [if_pos hs] at h
      cases hfi : read_file_header img (u32At bd (i * 4)) with
      | error e => rw [hfi] at h; cases h
      | ok fi =>
        rw [hfi] at h
        cases hrest : goListDir img bd rest with
        | error e =>
          rw [show (Except.ok fi >>= fun fi => goListDir img bd rest >>=
                fun l => pure (fi :: l)) = (goListDir img bd rest >>=
                fun l => pure (fi :: l)) from rfl, hrest] at h
          cases h
        | ok l2 =>
          rw [show (Except.ok fi >>= fun fi => goListDir img bd rest >>=
                fun l => pure (fi :: l)) = (goListDir img bd rest >>=
                fun l => pure (fi :: l)) from rfl, hrest] at h
          cases h
          rw [List.filter_cons, if_pos (by simpa using hs)]
          simp only [List.length_cons]
          rw [ih l2 hrest]
    · rw [if_neg hs] at h
      rw [List.filter_cons, if_neg (by simpa using hs)]
      exact ih l h

/-- C5 (amended): list_directory yields exactly one FileInfo per
non-zero entry among the 72 hash-table words, traversed in reverse index
order; it never follows any nextsamehash collision chain, so headers
reachable only through a chain are not listed. -/
theorem list_directory_one_per_slot (img : ADF) (block : Nat) (bd : List Nat)
    (l : List FileInfo)
    (hbd : read_sector img block = .ok bd)
    (hl : list_directory img block = .ok l) :
    l.length = (revSlots.filter (fun i => decide (u32At bd (i * 4) ≠ 0))).length := by
  unfold list_directory at hl
  rw [hbd] at hl
  exact goListDir_length img bd revSlots l hl

/-- Directory sector of the C5 counterexample: hash slot 77 (bytes
308..311) points to header 1, all other slots zero. -/
def dirC5 : List Nat := List.replicate 308 0 ++ [0, 0, 0, 1] ++ List.replicate 200 0

/-- Modelled from the spec: the "nextsamehash" hash-chain pointer of a
header block.  The spec lists it at bytes "580..583", which exceeds a
512-byte block, so the canonical Amiga position size - 16 = 496 is used.
No code under src/ reads this field, which is what C5 is about. -/
def NEXT_SAME_HASH_OFFSET : Nat := 496

/-- Header 1 of the C5 counterexample: name "A", nextsamehash pointing to
header 2. -/
def hdr1C5 : List Nat :=
  List.replicate 432 0 ++ [1, 65] ++ List.replicate 62 0 ++ [0, 0, 0, 2] ++
  List.replicate 12 0

/-- Header 2 of the C5 counterexample: name "B", reachable only through
the nextsamehash chain of header 1. -/
def hdr2C5 : List Nat := List.replicate 432 0 ++ [1, 66] ++ List.replicate 78 0

/-- The C5 counterexample image: directory at sector 0, headers at
sectors 1 and 2. -/
def imgC5 : ADF := ⟨dirC5 ++ hdr1C5 ++ hdr2C5, []⟩

/-- The single FileInfo that list_directory yields on imgC5. -/
def fiC5 : FileInfo :=
  { name := [65], size := 0, is_dir := false, protection := 0, creation_date := 0 }

theorem ld_imgC5 : list_directory imgC5 0 = .ok [fiC5] := by decide

/-- C5 counterexample: on imgC5 the claim demands two FileInfo entries
(one for header 1 in hash slot 77 and one for header 2 reached through
header 1's non-zero nextsamehash chain), but list_directory yields
exactly one entry - the chain is never followed even though header 2
exists and is readable. -/
theorem list_directory_misses_chain :
    list_directory imgC5 0 = .ok [fiC5] ∧
    u32At hdr1C5 NEXT_SAME_HASH_OFFSET = 2 ∧ (2 : Nat) ≠ 0 ∧
    read_sector imgC5 2 = .ok hdr2C5 ∧
    (read_file_header imgC5 2).map FileInfo.name = .ok [66] :=
  ⟨ld_imgC5, by decide, by decide, by decide, by decide⟩

/-- Witness for list_directory_one_per_slot at imgC5. -/
theorem list_directory_one_per_slot_witness :
    ([fiC5] : List FileInfo).length =
      (revSlots.filter (fun i => decide (u32At dirC5 (i * 4) ≠ 0))).length :=
  list_directory_one_per_slot imgC5 0 dirC5 [fiC5] (by decide) ld_imgC5


/-! ### C6: create_directory and duplicate names -/

/-- split_path of disk.rs: split at the last slash (byte 47); a path
without a slash has the empty parent. -/
def rfindSlash : List Nat → Option Nat
  | [] => none
  | c :: rest =>
    match rfindSlash rest with
    | some i => some (i + 1)
    | none => if c = 47 then some 0 else none

/-- split_path of disk.rs (path.rfind of a slash). -/
def split_path (path : List Nat) : List Nat × List Nat :=
  match rfindSlash path with
  | some i => (path.take i, path.drop (i + 1))
  | none => ([], path)

/-- str::split on the slash byte: the components between separators,
including empty ones (so the empty path yields one empty component). -/
def splitOnSlash : List Nat → List (List Nat)
  | [] => [[]]
  | c :: rest =>
    if c = 47 then
      [] :: splitOnSlash rest
    else
      match splitOnSlash rest with
      | [] => [[c]]
      | comp :: comps => (c :: comp) :: comps

/-- ADF::is_directory of disk.rs: first byte of the block equals
BLOCK_TYPE_DIRECTORY = 2. -/
def is_directory (img : ADF) (block : Nat) : Except AErr Bool := do
  let bd ← read_sector img block
  pure (bd.getD 0 0 = 2)

/-- The reverse hash-slot scan of ADF::find_file_header_block. -/
def ffhbLoop (img : ADF) (bd : List Nat) (file_name : List Nat) :
    List Nat → Except AErr Nat
  | [] => .error .notFound
  | i :: rest =>
    if u32At bd (i * 4) ≠ 0 then do
      let fi ← read_file_header img (u32At bd (i * 4))
      if fi.name = file_name then
        pure (u32At bd (i * 4))
      else
        ffhbLoop img bd file_name rest
    else
      ffhbLoop img bd file_name rest

/-- ADF::find_file_header_block of disk.rs. -/
def find_file_header_block (img : ADF) (dir_block : Nat) (file_name : List Nat) :
    Except AErr Nat := do
  let bd ← read_sector img dir_block
  ffhbLoop img bd file_name revSlots

/-- The component loop of ADF::find_directory_block. -/
def fdbLoop (img : ADF) : Nat → List (List Nat) → Except AErr Nat
  | cur, [] => .ok cur
  | cur, comp :: rest => do
    let nb ← find_file_header_block img cur comp
    let isd ← is_directory img nb
    if isd then
      fdbLoop img nb rest
    else
      .error .notFound

/-- ADF::find_directory_block of disk.rs: walk the non-empty slash
components from ROOT_BLOCK. -/
def find_directory_block (img : ADF) (path : List Nat) : Except AErr Nat :=
  fdbLoop img ROOT_BLOCK ((splitOnSlash path).filter (fun c => !c.isEmpty))

/-- ADF::find_free_block of disk.rs: the first free bitmap entry with
index at least 2. -/
def find_free_block (bitmap : List Bool) : Option Nat :=
  ((bitmap.enum.drop 2).find? (fun p => p.2)).map (fun p => p.1)

/-- ADF::set_block_used of disk.rs (silently ignores out-of-range
indices). -/
def set_block_used (img : ADF) (block_index : Nat) : ADF :=
  if block_index < img.bitmap.length then
    { img with bitmap := img.bitmap.set block_index false }
  else
    img

/-- ADF::allocate_block of disk.rs, returning the updated image and the
allocated index. -/
def allocate_block (img : ADF) : Except AErr (ADF × Nat) :=
  match find_free_block img.bitmap with
  | some b => .ok (set_block_used img b, b)
  | none => .error .noFreeBlocks

/-- Modelled from the spec: MAX_NAME_LENGTH, used by disk.rs but absent
from the consts.rs snapshot under src/; the spec caps names at 30
characters (adf_blk.rs likewise has MAXNAMELENGTH = 30). -/
def MAX_NAME_LENGTH : Nat := 30

/-- Modelled from the spec: DIR_PARENT_OFFSET, used by disk.rs but absent
from the consts.rs snapshot under src/.  The spec lists the parent
pointer of a header block at bytes "584..587", which exceeds a 512-byte
block, so the canonical Amiga position size - 12 = 500 is used; its exact
value does not affect any claim, the writes only need to stay inside the
block. -/
def DIR_PARENT_OFFSET : Nat := 500

/-- The directory block assembled by ADF::initialize_directory: type byte
2, big-endian parent pointer at DIR_PARENT_OFFSET, name length (clamped
to 30) at byte 432 and name bytes at 433. -/
def dirBlockFor (parent_block : Nat) (name : List Nat) : List Nat :=
  let d0 := (List.replicate 512 0).set 0 2
  let d1 := setBytes d0 DIR_PARENT_OFFSET (be32 parent_block)
  let name_len := min name.length MAX_NAME_LENGTH
  setBytes (d1.set 432 name_len) 433 (name.take name_len)

/-- ADF::initialize_directory of disk.rs. -/
def initialize_directory (img : ADF) (new_block parent_block : Nat)
    (name : List Nat) : Except AErr ADF :=
  write_sector img new_block (dirBlockFor parent_block name)

/-- The reverse free-slot scan of ADF::add_entry_to_directory: the first
hash word (from index 77 down) that is zero receives the entry block
number; the name argument of the Rust function is never used - there is
no duplicate-name check. -/
def addEntryLoop (img : ADF) (dir_block entry_block : Nat) (dir_data : List Nat) :
    List Nat → Except AErr ADF
  | [] => .error .dirFull
  | i :: rest =>
    if u32At dir_data (i * 4) = 0 then
      write_sector img dir_block (setBytes dir_data (i * 4) (be32 entry_block))
    else
      addEntryLoop img dir_block entry_block dir_data rest

/-- ADF::add_entry_to_directory of disk.rs. -/
def add_entry_to_directory (img : ADF) (dir_block entry_block : Nat)
    (name : List Nat) : Except AErr ADF := do
  let bd ← read_sector img dir_block
  addEntryLoop img dir_block entry_block bd revSlots

/-- ADF::create_directory of disk.rs: resolve the parent, allocate a
block, initialize it as a directory and append it to the parent's hash
table.  No check that the parent already contains the name. -/
def create_directory (img : ADF) (path : List Nat) : Except AErr ADF := do
  let pn := split_path path
  let parent_block ← find_directory_block img pn.1
  let ab ← allocate_block img
  let img3 ← initialize_directory ab.1 ab.2 parent_block pn.2
  add_entry_to_directory img3 parent_block ab.2 pn.2


theorem read_sector_at (img : ADF) (k : Nat) (pre mid post : List Nat)
    (hsplit : img.data = pre ++ (mid ++ post))
    (hpre : pre.length = k * 512) (hmid : mid.length = 512) :
    read_sector img k = .ok mid := by
  have hdrop : (pre ++ (mid ++ post)).drop (k * 512) = mid ++ post := by
    rw [← hpre, List.drop_left]
  have htake : (mid ++ post).take 512 = mid := by
    rw [← hmid, List.take_left]
  simp only [read_sector, ADF_SECTOR_SIZE, hsplit]
  rw [if_pos (by simp [hpre, hmid]), hdrop, htake]

theorem write_sector_at (img : ADF) (k : Nat) (pre mid post d : List Nat)
    (hsplit : img.data = pre ++ (mid ++ post))
    (hpre : pre.length = k * 512) (hmid : mid.length = 512) (hd : d.length = 512) :
    write_sector img k d = .ok { img with data := pre ++ (d ++ post) } := by
  have htake : (pre ++ (mid ++ post)).take (k * 512) = pre := by
    rw [← hpre]; exact List.take_left pre (mid ++ post)
  have hdrop : (pre ++ (mid ++ post)).drop (k * 512 + 512) = post := by
    have h1 : k * 512 + 512 = pre.length + 512 := by omega
    rw [h1, List.drop_append, ← hmid, List.drop_left]
  simp only [write_sector, ADF_SECTOR_SIZE, hsplit]
  rw [if_neg (by omega), if_pos (by simp [hpre, hmid])]
  rw [htake, hdrop, List.append_assoc]

theorem goListDir_skip (img : ADF) (bd : List Nat) (i : Nat) (rest : List Nat)
    (h : u32At bd (i * 4) = 0) :
    goListDir img bd (i :: rest) = goListDir img bd rest := by
  rw [goListDir, if_neg (by simp [h])]

theorem goListDir_hit (img : ADF) (bd : List Nat) (i : Nat) (rest : List Nat)
    (fi : FileInfo) (l : List FileInfo) (h : u32At bd (i * 4) ≠ 0)
    (hfi : read_file_header img (u32At bd (i * 4)) = .ok fi)
    (hrest : goListDir img bd rest = .ok l) :
    goListDir img bd (i :: rest) = .ok (fi :: l) := by
  rw [goListDir, if_pos h, hfi]
  show (goListDir img bd rest >>= fun l => pure (fi :: l)) = _
  rw [hrest]
  rfl

theorem goListDir_all_zero (img : ADF) (bd : List Nat) :
    ∀ slots : List Nat, (∀ i ∈ slots, u32At bd (i * 4) = 0) →
      goListDir img bd slots = .ok [] := by
  intro slots
  induction slots with
  | nil => intro h; rfl
  | cons i rest ih =>
    intro h
    rw [goListDir_skip img bd i rest (h i (by simp))]
    exact ih (fun j hj => h j (by simp [hj]))

theorem addEntryLoop_skip (img : ADF) (db eb : Nat) (dd : List Nat) (i : Nat)
    (rest : List Nat) (h : u32At dd (i * 4) ≠ 0) :
    addEntryLoop img db eb dd (i :: rest) = addEntryLoop img db eb dd rest := by
  rw [addEntryLoop, if_neg h]

theorem addEntryLoop_hit (img : ADF) (db eb : Nat) (dd : List Nat) (i : Nat)
    (rest : List Nat) (h : u32At dd (i * 4) = 0) :
    addEntryLoop img db eb dd (i :: rest) =
      write_sector img db (setBytes dd (i * 4) (be32 eb)) := by
  rw [addEntryLoop, if_pos h]

/-! The concrete C6 image: root directory at 880 already contains an
entry named "A" (header at sector 3, hash slot 77); exactly one free
block (index 2) in the bitmap mirror. -/

/-- Sectors 0 and 1 of the C6 image. -/
def Z1024 : List Nat := List.replicate 1024 0

/-- Sector 2 of the C6 image (free, will receive the new directory). -/
def Z512 : List Nat := List.replicate 512 0

/-- Sector 3 of the C6 image: header named "A". -/
def hdrA6 : List Nat := List.replicate 432 0 ++ [1, 65] ++ List.replicate 78 0

/-- Sectors 4..879 of the C6 image. -/
def Q876 : List Nat := List.replicate 448512 0

/-- Sector 880 of the C6 image: root block whose hash slot 77 (bytes
308..311) points to the header named "A" at sector 3. -/
def rootC6 : List Nat := List.replicate 308 0 ++ [0, 0, 0, 3] ++ List.replicate 200 0

/-- The root block after create_directory has appended the duplicate
entry: hash slot 76 (bytes 304..307) now holds block 2. -/
def root2C6 : List Nat := setBytes rootC6 304 (be32 2)

/-- The C6 image. -/
def imgC6 : ADF :=
  ⟨Z1024 ++ (Z512 ++ (hdrA6 ++ (Q876 ++ rootC6))), [false, false, true]⟩

/-- imgC6 after allocate_block has claimed block 2. -/
def imgC6b : ADF :=
  ⟨Z1024 ++ (Z512 ++ (hdrA6 ++ (Q876 ++ rootC6))), [false, false, false]⟩

/-- imgC6 after the new directory block has been written to sector 2. -/
def imgC6c : ADF :=
  ⟨Z1024 ++ (dirBlockFor 880 [65] ++ (hdrA6 ++ (Q876 ++ rootC6))), [false, false, false]⟩

/-- The final image produced by create_directory imgC6 "A". -/
def imgC6w : ADF :=
  ⟨Z1024 ++ (dirBlockFor 880 [65] ++ (hdrA6 ++ (Q876 ++ root2C6))), [false, false, false]⟩

/-- The FileInfo of the pre-existing entry "A". -/
def fiA6 : FileInfo :=
  { name := [65], size := 0, is_dir := false, protection := 0, creation_date := 0 }

theorem hQ876_length : Q876.length = 448512 := List.length_replicate 448512 0

theorem hZ1024_length : Z1024.length = 1024 := List.length_replicate 1024 0

theorem imgC6_read3 : read_sector imgC6 3 = .ok hdrA6 := by
  apply read_sector_at imgC6 3 (Z1024 ++ Z512) hdrA6 (Q876 ++ rootC6)
  · show Z1024 ++ (Z512 ++ (hdrA6 ++ (Q876 ++ rootC6))) = _
    simp only [List.append_assoc]
  · rw [List.length_append, hZ1024_length]
    decide
  · decide

theorem imgC6_read880 : read_sector imgC6 880 = .ok rootC6 := by
  apply read_sector_at imgC6 880 (Z1024 ++ (Z512 ++ (hdrA6 ++ Q876))) rootC6 []
  · show Z1024 ++ (Z512 ++ (hdrA6 ++ (Q876 ++ rootC6))) = _
    simp only [List.append_assoc, List.append_nil]
  · simp only [List.length_append, hZ1024_length, hQ876_length]
    decide
  · decide

theorem u32At_rootC6_zero (off : Nat) (h : off + 3 < 308) : u32At rootC6 off = 0 := by
  have hr : ∀ k, k < 308 → rootC6.getD k 0 = 0 := by
    intro k hk
    show ((List.replicate 308 0 ++ [0, 0, 0, 3]) ++ List.replicate 200 0).getD k 0 = 0
    rw [List.getD_append _ _ _ _
      (by rw [List.length_append, List.length_replicate]; simp; omega)]
    rw [List.getD_append _ _ _ _ (by rw [List.length_replicate]; omega)]
    exact getD_replicate_zero 308 k
  unfold u32At
  rw [hr off (by omega), hr (off + 1) (by omega), hr (off + 2) (by omega),
      hr (off + 3) (by omega)]
  rfl

theorem revSlots_cons : revSlots = 77 :: 76 :: (List.range' 6 70).reverse := by decide

theorem rfh_imgC6_3 : read_file_header imgC6 3 = .ok fiA6 := by
  unfold read_file_header
  rw [imgC6_read3]
  decide

theorem ld_imgC6 : list_directory imgC6 880 = .ok [fiA6] := by
  unfold list_directory
  rw [imgC6_read880, bind_ok]
  show goListDir imgC6 rootC6 revSlots = .ok [fiA6]
  rw [revSlots_cons]
  have h308 : u32At rootC6 (77 * 4) = 3 := by decide
  have hfi77 : read_file_header imgC6 (u32At rootC6 (77 * 4)) = .ok fiA6 := by
    rw [h308]; exact rfh_imgC6_3
  have hrest : goListDir imgC6 rootC6 (76 :: (List.range' 6 70).reverse) = .ok [] := by
    apply goListDir_all_zero
    intro i hi
    apply u32At_rootC6_zero
    have : i ≤ 76 := by
      rcases List.mem_cons.1 hi with h76 | hmem
      · omega
      · have := (List.mem_range'_1).1 (List.mem_reverse.1 hmem)
        omega
    omega
  rw [goListDir_hit imgC6 rootC6 77 _ fiA6 [] (by rw [h308]; omega) hfi77 hrest]

theorem imgC6c_read880 : read_sector imgC6c 880 = .ok rootC6 := by
  apply read_sector_at imgC6c 880 (Z1024 ++ (dirBlockFor 880 [65] ++ (hdrA6 ++ Q876)))
    rootC6 []
  · show Z1024 ++ (dirBlockFor 880 [65] ++ (hdrA6 ++ (Q876 ++ rootC6))) = _
    simp only [List.append_assoc, List.append_nil]
  · simp only [List.length_append, hZ1024_length, hQ876_length]
    decide
  · decide

theorem create_imgC6 : create_directory imgC6 [65] = .ok imgC6w := by
  have hfdb : find_directory_block imgC6 [] = .ok 880 := rfl
  have halloc : allocate_block imgC6 = .ok (imgC6b, 2) := rfl
  have hinit : initialize_directory imgC6b 2 880 [65] = .ok imgC6c := by
    unfold initialize_directory
    apply write_sector_at imgC6b 2 Z1024 Z512 (hdrA6 ++ (Q876 ++ rootC6))
    · rfl
    · rw [hZ1024_length]
    · decide
    · decide
  unfold create_directory
  show (Bind.bind (find_directory_block imgC6 []) fun parent =>
    Bind.bind (allocate_block imgC6) fun ab =>
      Bind.bind (initialize_directory ab.1 ab.2 parent [65]) fun img3 =>
        add_entry_to_directory img3 parent ab.2 [65]) = .ok imgC6w
  rw [hfdb, bind_ok]
  show (Bind.bind (allocate_block imgC6) fun ab =>
    Bind.bind (initialize_directory ab.1 ab.2 880 [65]) fun img3 =>
      add_entry_to_directory img3 880 ab.2 [65]) = .ok imgC6w
  rw [halloc, bind_ok]
  show (Bind.bind (initialize_directory imgC6b 2 880 [65]) fun img3 =>
    add_entry_to_directory img3 880 2 [65]) = .ok imgC6w
  rw [hinit, bind_ok]
  show add_entry_to_directory imgC6c 880 2 [65] = .ok imgC6w
  unfold add_entry_to_directory
  rw [imgC6c_read880, bind_ok]
  show addEntryLoop imgC6c 880 2 rootC6 revSlots = .ok imgC6w
  rw [revSlots_cons]
  rw [addEntryLoop_skip imgC6c 880 2 rootC6 77 _ (by decide)]
  rw [addEntryLoop_hit imgC6c 880 2 rootC6 76 _ (by decide)]
  have hw := write_sector_at imgC6c 880 (Z1024 ++ (dirBlockFor 880 [65] ++ (hdrA6 ++ Q876)))
    rootC6 [] (setBytes rootC6 (76 * 4) (be32 2))
    (by show Z1024 ++ (dirBlockFor 880 [65] ++ (hdrA6 ++ (Q876 ++ rootC6))) = _
        simp only [List.append_assoc, List.append_nil])
    (by simp only [List.length_append, hZ1024_length, hQ876_length]; decide)
    (by decide) (by decide)
  rw [hw]
  have hdata : (Z1024 ++ (dirBlockFor 880 [65] ++ (hdrA6 ++ Q876))) ++
      (setBytes rootC6 (76 * 4) (be32 2) ++ []) =
      Z1024 ++ (dirBlockFor 880 [65] ++ (hdrA6 ++ (Q876 ++ root2C6))) := by
    show _ = Z1024 ++ (dirBlockFor 880 [65] ++ (hdrA6 ++ (Q876 ++ setBytes rootC6 304 (be32 2))))
    simp only [List.append_assoc, List.append_nil]
  rw [hdata]
  rfl

/-- C6 counterexample: the root of imgC6 already lists an entry named
"A" (byte 65), yet create_directory imgC6 "A" succeeds - no NameExists
error exists anywhere in the code - and changes the image: sector 880
goes from rootC6 to root2C6, which differ at hash slot 76. -/
theorem create_directory_no_name_check :
    (list_directory imgC6 880).map (fun l => l.map FileInfo.name) = .ok [[65]] ∧
    create_directory imgC6 [65] = .ok imgC6w ∧
    read_sector imgC6 880 = .ok rootC6 ∧
    read_sector imgC6w 880 = .ok root2C6 ∧
    root2C6 ≠ rootC6 := by
  refine ⟨?_, create_imgC6, imgC6_read880, ?_, by decide⟩
  · rw [ld_imgC6]; rfl
  · apply read_sector_at imgC6w 880 (Z1024 ++ (dirBlockFor 880 [65] ++ (hdrA6 ++ Q876)))
      root2C6 []
    · show Z1024 ++ (dirBlockFor 880 [65] ++ (hdrA6 ++ (Q876 ++ root2C6))) = _
      simp only [List.append_assoc, List.append_nil]
    · simp only [List.length_append, hZ1024_length, hQ876_length]
      decide
    · decide

/-- C6 (amended): create_directory performs no duplicate-name check
anywhere: the insertion routine add_entry_to_directory ignores its name
argument entirely (first conjunct, for every image and pair of names),
and on the concrete image whose root already lists "A", creating "A"
again succeeds and rewrites sector 880 instead of failing with a
NameExists error (remaining conjuncts). -/
theorem create_directory_ignores_duplicates (img : ADF) (db eb : Nat)
    (n1 n2 : List Nat) :
    add_entry_to_directory img db eb n1 = add_entry_to_directory img db eb n2 ∧
    create_directory imgC6 [65] = .ok imgC6w ∧
    root2C6 ≠ rootC6 :=
  ⟨rfl, create_imgC6, by decide⟩


/-! ### DMS decoder (src/dms.rs) -/

/-- Error taxonomy of the embedded DMS decoder: InvalidData (bad "DMS!"
or "TR" magic), UnexpectedEof (read_exact or bit stream exhausted),
Unsupported (packing modes other than 0/1/2), crash (debug-build u16
underflow in dms_to_adf when high_track < low_track). -/
inductive DErr where
  | invalidData
  | eof
  | unsupported
  | crash
deriving DecidableEq, Repr

/-- read_exact of n bytes at a stream position. -/
def readExact (input : List Nat) (pos n : Nat) : Except DErr (List Nat × Nat) :=
  if pos + n ≤ input.length then
    .ok ((input.drop pos).take n, pos + n)
  else
    .error .eof

/-- read_u8. -/
def readU8 (input : List Nat) (pos : Nat) : Except DErr (Nat × Nat) :=
  if pos + 1 ≤ input.length then .ok (input.getD pos 0, pos + 1) else .error .eof

/-- read_u16::<BigEndian>. -/
def readU16 (input : List Nat) (pos : Nat) : Except DErr (Nat × Nat) :=
  if pos + 2 ≤ input.length then .ok (u16At input pos, pos + 2) else .error .eof

/-- read_u32::<BigEndian>. -/
def readU32 (input : List Nat) (pos : Nat) : Except DErr (Nat × Nat) :=
  if pos + 4 ≤ input.length then .ok (u32At input pos, pos + 4) else .error .eof

/-- DMSHeader of dms.rs. -/
structure DMSHeader where
  signature : List Nat
  header_type : List Nat
  info_bits : Nat
  date : Nat
  low_track : Nat
  high_track : Nat
  packed_size : Nat
  unpacked_size : Nat
  os_version : Nat
  os_revision : Nat
  machine_cpu : Nat
  cpu_copro : Nat
  machine_type : Nat
  unused : Nat
  cpu_mhz : Nat
  time_create : Nat
  version_creator : Nat
  version_needed : Nat
  diskette_type : Nat
  compression_mode : Nat
  info_header_crc : Nat
deriving DecidableEq, Repr

/-- DMSTrackHeader of dms.rs; packing_mode kept as the raw byte (the Rust
enum maps 0/1/2 to None/Simple/Quick and everything else to values the
track dispatch rejects as Unsupported). -/
structure DMSTrackHeader where
  track_number : Nat
  unused1 : Nat
  pack_length : Nat
  unused2 : Nat
  unpack_length : Nat
  c_flag : Nat
  packing_mode : Nat
  u_sum : Nat
  d_crc : Nat
  h_crc : Nat
deriving DecidableEq, Repr

/-- The streaming state of DMSReader of dms.rs: the input bytes with the
read position, the parsed archive header, and the per-archive QUICK state
(256-byte ring kept as a function and the u8 cursor).  On an error path
the Rust reader may retain partially advanced ring/cursor state; the
embedding returns only the error, which matches every success-path claim. -/
structure DMSState where
  input : List Nat
  pos : Nat
  header : DMSHeader
  quick_text_loc : Nat
  text : Nat → Nat

/-- u8 wrapping_add. -/
def wadd8 (a b : Nat) : Nat := (a + b) % 256

/-- u8 wrapping_sub. -/
def wsub8 (a b : Nat) : Nat := (a + 256 - b % 256) % 256

/-- BitReader of dms.rs. -/
structure BitReader where
  data : List Nat
  pos : Nat
  bit_buffer : Nat
  bit_count : Nat
deriving DecidableEq, Repr

/-- BitReader::new: prime the 32-bit buffer with the first four bytes
when available, else zero; the position starts at 4 and the bit count at
32 in BOTH cases. -/
def BitReader.new (data : List Nat) : BitReader :=
  { data := data, pos := 4,
    bit_buffer := if 4 ≤ data.length then u32At data 0 else 0,
    bit_count := 32 }

/-- BitReader::ensure_bits: refill one byte at a time while fewer than n
bits are buffered and input remains; the u32 buffer shift wraps mod 2^32. -/
def ensure_bits (br : BitReader) (n : Nat) : BitReader :=
  if h : br.bit_count < n ∧ br.pos < br.data.length then
    ensure_bits
      { br with
        bit_buffer := (br.bit_buffer * 256 + br.data.getD br.pos 0) % 4294967296,
        pos := br.pos + 1,
        bit_count := br.bit_count + 8 } n
  else
    br
termination_by br.data.length - br.pos
decreasing_by
  omega

/-- BitReader::get_bits (only ever called with n = 1, 2 or 8; the Rust
mask (1 << n) - 1 is 2^n - 1). -/
def get_bits (br : BitReader) (n : Nat) : Except DErr (Nat × BitReader) :=
  let br2 := ensure_bits br n
  if br2.bit_count < n then
    .error .eof
  else
    .ok ((br2.bit_buffer >>> (br2.bit_count - n)) &&& (2 ^ n - 1),
         { br2 with bit_count := br2.bit_count - n })

/-- The inner copy loop of unpack_quick: j iterations, each reading the
ring at the FIXED source index i & 0xff (the Rust code never increments
i), storing that byte at the cursor, advancing the cursor and emitting
the byte. -/
def quickCopy (text : Nat → Nat) (loc i : Nat) : Nat → List Nat → (List Nat × (Nat → Nat) × Nat)
  | 0, out => (out, text, loc)
  | j + 1, out =>
    let byte := text (i % 256)
    quickCopy (fun k => if k = loc % 256 then byte else text k) (wadd8 loc 1) i j
      (out ++ [byte])

theorem quickCopy_length (i : Nat) :
    ∀ (j : Nat) (text : Nat → Nat) (loc : Nat) (out : List Nat),
      (quickCopy text loc i j out).1.length = out.length + j := by
  intro j
  induction j with
  | zero => intro text loc out; rfl
  | succ j ih =>
    intro text loc out
    rw [quickCopy, ih]
    simp only [List.length_append, List.length_cons, List.length_nil]
    omega

/-- The decode loop of unpack_quick: until 11360 bytes are emitted, read
one flag bit; a 1 bit is followed by an 8-bit literal (stored in the ring
at the cursor); a 0 bit by a 2-bit length code j (copy length j + 2) and
an 8-bit offset, copying from cursor - offset - 1 (u8 wrapping). -/
def quickLoop (br : BitReader) (text : Nat → Nat) (loc : Nat) (out : List Nat) :
    Except DErr (List Nat × (Nat → Nat) × Nat) :=
  if h : out.length < 11360 then
    match get_bits br 1 with
    | .error e => .error e
    | .ok (b, br1) =>
      if b ≠ 0 then
        match get_bits br1 8 with
        | .error e => .error e
        | .ok (byte, br2) =>
          quickLoop br2 (fun k => if k = loc % 256 then byte else text k)
            (wadd8 loc 1) (out ++ [byte])
      else
        match get_bits br1 2 with
        | .error e => .error e
        | .ok (j2, br2) =>
          match get_bits br2 8 with
          | .error e => .error e
          | .ok (off, br3) =>
            let r := quickCopy text loc (wsub8 (wsub8 loc off) 1) (j2 + 2) out
            quickLoop br3 r.2.1 r.2.2 r.1
  else
    .ok (out, text, loc)
termination_by 11360 - out.length
decreasing_by
  · simp only [List.length_append, List.length_cons, List.length_nil]
    omega
  · simp only [quickCopy_length]
    omega

/-- DMSReader::unpack_quick of dms.rs: run the decode loop from the
current ring and cursor, then advance the cursor by 5 (u8 wrapping; the
final & 0xff of the Rust code is a no-op after wrapping_add). -/
def unpack_quick (text : Nat → Nat) (loc : Nat) (input : List Nat) :
    Except DErr (List Nat × (Nat → Nat) × Nat) :=
  match quickLoop (BitReader.new input) text loc [] with
  | .error e => .error e
  | .ok (out, t2, l2) => .ok (out, t2, wadd8 l2 5)

/-- The loop of DMSReader::unpack_rle of dms.rs, position-indexed. -/
def rleLoop (input : List Nat) (i : Nat) (out : List Nat) : Except DErr (List Nat) :=
  if h : i < input.length then
    let a := input.getD i 0
    if a ≠ 144 then
      rleLoop input (i + 1) (out ++ [a])
    else if hb : i + 1 < input.length then
      let b := input.getD (i + 1) 0
      if b = 0 then
        rleLoop input (i + 2) (out ++ [a])
      else if hc : i + 2 < input.length then
        let rep_char := input.getD (i + 2) 0
        if b = 255 then
          if hd : i + 4 < input.length then
            rleLoop input (i + 5) (out ++ List.replicate (u16At input (i + 3)) rep_char)
          else
            .error .eof
        else
          rleLoop input (i + 3) (out ++ List.replicate b rep_char)
      else
        .error .eof
    else
      .error .eof
  else
    .ok out
termination_by input.length - i
decreasing_by
  · omega
  · omega
  · omega
  · omega

/-- DMSReader::unpack_rle of dms.rs. -/
def unpack_rle (input : List Nat) : Except DErr (List Nat) :=
  rleLoop input 0 []

/-- DMSReader::read_track_header of dms.rs: "TR" magic then nine
big-endian fields, 20 bytes in total. -/
def read_track_header (input : List Nat) (pos : Nat) :
    Except DErr (DMSTrackHeader × Nat) := do
  let (hid, p1) ← readExact input pos 2
  if hid = [84, 82] then do
    let (tn, p2) ← readU16 input p1
    let (u1, p3) ← readU16 input p2
    let (pl, p4) ← readU16 input p3
    let (u2, p5) ← readU16 input p4
    let (ul, p6) ← readU16 input p5
    let (cf, p7) ← readU8 input p6
    let (pm, p8) ← readU8 input p7
    let (us, p9) ← readU16 input p8
    let (dc, p10) ← readU16 input p9
    let (hc, p11) ← readU16 input p10
    .ok ({ track_number := tn, unused1 := u1, pack_length := pl, unused2 := u2,
           unpack_length := ul, c_flag := cf, packing_mode := pm, u_sum := us,
           d_crc := dc, h_crc := hc }, p11)
  else
    .error .invalidData

/-- DMSReader::read_track of dms.rs: parse the track header, read
pack_length compressed bytes, then dispatch on the packing mode: 0
returns the raw bytes, 1 RLE-decodes them, 2 QUICK-decodes them threading
the per-archive ring and cursor, anything else is Unsupported.  Note that
the raw-copy and RLE paths return whatever length results - the header
field unpack_length is never consulted. -/
def read_track (s : DMSState) : Except DErr (List Nat × DMSState) := do
  let (th, p1) ← read_track_header s.input s.pos
  let (compressed, p2) ← readExact s.input p1 th.pack_length
  match th.packing_mode with
  | 0 => .ok (compressed, { s with pos := p2 })
  | 1 =>
    match unpack_rle compressed with
    | .error e => .error e
    | .ok out => .ok (out, { s with pos := p2 })
  | 2 =>
    match unpack_quick s.text s.quick_text_loc compressed with
    | .error e => .error e
    | .ok (out, t2, l2) =>
      .ok (out, { s with pos := p2, text := t2, quick_text_loc := l2 })
  | _ => .error .unsupported

/-- DMSReader::new of dms.rs: check the "DMS!" signature and parse the
56-byte archive header; the QUICK ring starts zeroed with cursor 0. -/
def DMSReader.new (input : List Nat) : Except DErr DMSState := do
  let (sig, p1) ← readExact input 0 4
  if sig = [68, 77, 83, 33] then do
    let (htype, p2) ← readExact input p1 4
    let (ib, p3) ← readU32 input p2
    let (dt, p4) ← readU32 input p3
    let (lt, p5) ← readU16 input p4
    let (ht, p6) ← readU16 input p5
    let (ps, p7) ← readU32 input p6
    let (us, p8) ← readU32 input p7
    let (osv, p9) ← readU16 input p8
    let (osr, p10) ← readU16 input p9
    let (mc, p11) ← readU16 input p10
    let (cc, p12) ← readU16 input p11
    let (mt, p13) ← readU16 input p12
    let (un, p14) ← readU16 input p13
    let (mhz, p15) ← readU16 input p14
    let (tc, p16) ← readU32 input p15
    let (vc, p17) ← readU16 input p16
    let (vn, p18) ← readU16 input p17
    let (dk, p19) ← readU16 input p18
    let (cm, p20) ← readU16 input p19
    let (ihc, p21) ← readU16 input p20
    .ok { input := input, pos := p21,
          header := { signature := sig, header_type := htype, info_bits := ib,
                      date := dt, low_track := lt, high_track := ht,
                      packed_size := ps, unpacked_size := us, os_version := osv,
                      os_revision := osr, machine_cpu := mc, cpu_copro := cc,
                      machine_type := mt, unused := un, cpu_mhz := mhz,
                      time_create := tc, version_creator := vc,
                      version_needed := vn, diskette_type := dk,
                      compression_mode := cm, info_header_crc := ihc },
          quick_text_loc := 0, text := fun _ => 0 }
  else
    .error .invalidData

/-- The track loop of dms_to_adf, appending each decoded track. -/
def readTracksLoop (s : DMSState) : Nat → Except DErr (List Nat)
  | 0 => .ok []
  | n + 1 => do
    let (td, s2) ← read_track s
    let rest ← readTracksLoop s2 n
    .ok (td ++ rest)

/-- dms_to_adf of dms.rs: parse the archive header and decode
high_track - low_track + 1 tracks in order; the u16 subtraction panics in
a debug build when high_track < low_track (crash), and nothing ever
compares the output length against unpacked_size. -/
def dms_to_adf (input : List Nat) : Except DErr (List Nat) := do
  let s ← DMSReader.new input
  if s.header.high_track < s.header.low_track then
    .error .crash
  else
    readTracksLoop s (s.header.high_track - s.header.low_track + 1)


theorem readExact_ok {input : List Nat} {pos n : Nat} {bs : List Nat} {p2 : Nat}
    (h : readExact input pos n = .ok (bs, p2)) :
    bs = (input.drop pos).take n ∧ p2 = pos + n ∧ bs.length = n := by
  unfold readExact at h
  split at h
  · cases h
    refine ⟨rfl, rfl, ?_⟩
    simp only [List.length_take, List.length_drop]
    omega
  · cases h

/-- C7 (amended): for a NONE-mode track, read_track returns exactly
pack_length raw bytes; the track header's unpack_length is never
consulted, and dms_to_adf never compares the assembled output against the
archive header's unpacked_size (see the counterexample). -/
theorem read_track_none_length (s : DMSState) (th : DMSTrackHeader) (p1 : Nat)
    (hth : read_track_header s.input s.pos = .ok (th, p1))
    (hm : th.packing_mode = 0)
    (out : List Nat) (s2 : DMSState)
    (hok : read_track s = .ok (out, s2)) :
    out.length = th.pack_length := by
  unfold read_track at hok
  rw [hth, bind_ok] at hok
  dsimp only at hok
  cases hre : readExact s.input p1 th.pack_length with
  | error e => rw [hre] at hok; cases hok
  | ok cp =>
    obtain ⟨hbs, hp2, hlen⟩ := readExact_ok hre
    rw [hre, bind_ok] at hok
    rw [hm] at hok
    have : cp.1 = out := by
      cases hok
      rfl
    rw [← this, hlen]

/-- The C7 counterexample archive: one NONE-mode track whose pack_length
is 2 but whose header advertises unpack_length 5, inside an archive
advertising unpacked_size 5. -/
def archC7 : List Nat :=
  [68, 77, 83, 33] ++ [80, 82, 79, 32] ++
  [0, 0, 0, 0] ++ [0, 0, 0, 0] ++
  [0, 0] ++ [0, 0] ++
  [0, 0, 0, 0] ++ [0, 0, 0, 5] ++
  [0, 0, 0, 0, 0, 0, 0, 0, 0, 0, 0, 0, 0, 0] ++
  [0, 0, 0, 0] ++
  [0, 0, 0, 0, 0, 0, 0, 0, 0, 0] ++
  [84, 82, 0, 0, 0, 0, 0, 2, 0, 0, 0, 5, 0, 0, 0, 0, 0, 0, 0, 0] ++
  [9, 9]

/-- C7 counterexample: on archC7, read_track returns 2 bytes although the
track header's unpack_length is 5 (at byte offset 66), and dms_to_adf
assembles 2 bytes in total although the archive header's unpacked_size is
5 - neither length is checked. -/
theorem dms_track_length_mismatch :
    (dms_to_adf archC7).map List.length = .ok 2 ∧
    (DMSReader.new archC7).map (fun s => s.header.unpacked_size) = .ok 5 ∧
    (2 : Nat) ≠ 5 ∧
    ((DMSReader.new archC7).bind (fun s => read_track s)).map (fun p => p.1.length)
      = .ok 2 ∧
    u16At archC7 66 = 5 := by
  refine ⟨?_, ?_, by omega, ?_, by decide⟩ <;> rfl

/-- A placeholder archive header for witness states whose header content
is irrelevant to read_track. -/
def dummyDMSHeader : DMSHeader :=
  { signature := [], header_type := [], info_bits := 0, date := 0, low_track := 0,
    high_track := 0, packed_size := 0, unpacked_size := 0, os_version := 0,
    os_revision := 0, machine_cpu := 0, cpu_copro := 0, machine_type := 0,
    unused := 0, cpu_mhz := 0, time_create := 0, version_creator := 0,
    version_needed := 0, diskette_type := 0, compression_mode := 0,
    info_header_crc := 0 }

/-- The bare NONE-mode track of archC7 as a reader state. -/
def trkC7 : List Nat :=
  [84, 82, 0, 0, 0, 0, 0, 2, 0, 0, 0, 5, 0, 0, 0, 0, 0, 0, 0, 0, 9, 9]

/-- Reader state positioned at trkC7. -/
def sC7 : DMSState :=
  { input := trkC7, pos := 0, header := dummyDMSHeader, quick_text_loc := 0,
    text := fun _ => 0 }

/-- The parsed track header of trkC7. -/
def thC7 : DMSTrackHeader :=
  { track_number := 0, unused1 := 0, pack_length := 2, unused2 := 0,
    unpack_length := 5, c_flag := 0, packing_mode := 0, u_sum := 0, d_crc := 0,
    h_crc := 0 }

/-- Witness for read_track_none_length on the concrete track trkC7. -/
theorem read_track_none_length_witness : ([9, 9] : List Nat).length = thC7.pack_length :=
  read_track_none_length sC7 thC7 20 (by decide) rfl [9, 9]
    { sC7 with pos := 22 } rfl


/-! ### C8: the QUICK state is per-archive -/

/-- C8: read_track threads the per-archive QUICK ring and cursor without
any reset: for a QUICK-mode track it feeds the CURRENT reader state
(whatever the previous tracks left there) into unpack_quick and stores
the resulting ring and cursor back into the reader (first two conjuncts),
and unpack_quick itself ends by advancing the cursor left by its decode
loop by 5 modulo 256 after the output is complete (third conjunct). -/
theorem read_track_quick_state (s : DMSState) (th : DMSTrackHeader) (p1 : Nat)
    (hth : read_track_header s.input s.pos = .ok (th, p1))
    (hm : th.packing_mode = 2)
    (hlen : p1 + th.pack_length ≤ s.input.length) :
    (∀ e, unpack_quick s.text s.quick_text_loc
        ((s.input.drop p1).take th.pack_length) = .error e →
      read_track s = .error e) ∧
    (∀ out t2 l2, unpack_quick s.text s.quick_text_loc
        ((s.input.drop p1).take th.pack_length) = .ok (out, t2, l2) →
      read_track s =
        .ok (out,
          { s with
            pos := p1 + th.pack_length
            text := t2
            quick_text_loc := l2 })) ∧
    (∀ out t2 l2,
      quickLoop (BitReader.new ((s.input.drop p1).take th.pack_length))
          s.text s.quick_text_loc [] = .ok (out, t2, l2) →
      unpack_quick s.text s.quick_text_loc ((s.input.drop p1).take th.pack_length)
        = .ok (out, t2, wadd8 l2 5)) := by
  have hre : readExact s.input p1 th.pack_length =
      .ok ((s.input.drop p1).take th.pack_length, p1 + th.pack_length) := by
    unfold readExact
    rw [if_pos hlen]
  refine ⟨?_, ?_, ?_⟩
  · intro e hq
    unfold read_track
    rw [hth, bind_ok]
    dsimp only
    rw [hre, bind_ok]
    dsimp only
    rw [hm, hq]
  · intro out t2 l2 hq
    unfold read_track
    rw [hth, bind_ok]
    dsimp only
    rw [hre, bind_ok]
    dsimp only
    rw [hm, hq]
  · intro out t2 l2 hq
    unfold unpack_quick
    rw [hq]

/-- A concrete QUICK-mode track record used by the C8 witness: the header
advertises pack_length 8, unpack_length 11360, mode 2, followed by eight
0xAA payload bytes. -/
def trkC8 : List Nat :=
  [84, 82, 0, 0, 0, 0, 0, 8, 0, 0, 44, 96, 0, 2, 0, 0, 0, 0, 0, 0] ++
  List.replicate 8 170

/-- Reader state positioned at trkC8. -/
def sC8 : DMSState :=
  { input := trkC8, pos := 0, header := dummyDMSHeader, quick_text_loc := 0,
    text := fun _ => 0 }

/-- The parsed track header of trkC8. -/
def thC8 : DMSTrackHeader :=
  { track_number := 0, unused1 := 0, pack_length := 8, unused2 := 0,
    unpack_length := 11360, c_flag := 0, packing_mode := 2, u_sum := 0,
    d_crc := 0, h_crc := 0 }

/-- Witness for read_track_quick_state on the concrete QUICK track. -/
theorem read_track_quick_state_witness :
    (∀ e, unpack_quick sC8.text sC8.quick_text_loc
        ((sC8.input.drop 20).take thC8.pack_length) = .error e →
      read_track sC8 = .error e) ∧
    (∀ out t2 l2, unpack_quick sC8.text sC8.quick_text_loc
        ((sC8.input.drop 20).take thC8.pack_length) = .ok (out, t2, l2) →
      read_track sC8 =
        .ok (out,
          { sC8 with
            pos := 20 + thC8.pack_length
            text := t2
            quick_text_loc := l2 })) ∧
    (∀ out t2 l2,
      quickLoop (BitReader.new ((sC8.input.drop 20).take thC8.pack_length))
          sC8.text sC8.quick_text_loc [] = .ok (out, t2, l2) →
      unpack_quick sC8.text sC8.quick_text_loc
          ((sC8.input.drop 20).take thC8.pack_length)
        = .ok (out, t2, wadd8 l2 5)) :=
  read_track_quick_state sC8 thC8 20 (by decide) rfl (by decide)


/-! ### C10: the bit reader on inputs shorter than 4 bytes -/

theorem BitReader.new_short (data : List Nat) (h : data.length < 4) :
    BitReader.new data =
      { data := data, pos := 4, bit_buffer := 0, bit_count := 32 } := by
  unfold BitReader.new
  rw [if_neg (by omega)]

theorem ensure_bits_stuck (br : BitReader) (n : Nat)
    (h : ¬ br.pos < br.data.length) : ensure_bits br n = br := by
  rw [ensure_bits, dif_neg (fun hc => h hc.2)]

theorem get_bits_zero (d : List Nat) (c n : Nat) (hd : d.length < 4) (hn : n ≤ c) :
    get_bits { data := d, pos := 4, bit_buffer := 0, bit_count := c } n =
      .ok (0, { data := d, pos := 4, bit_buffer := 0, bit_count := c - n }) := by
  unfold get_bits
  rw [ensure_bits_stuck _ _ (by show ¬ (4 < d.length); omega)]
  dsimp only
  rw [if_neg (by omega)]
  simp only [Nat.zero_shiftRight, Nat.zero_and]

theorem get_bits_fail (d : List Nat) (c n : Nat) (hd : d.length < 4) (hn : c < n) :
    get_bits { data := d, pos := 4, bit_buffer := 0, bit_count := c } n =
      .error .eof := by
  unfold get_bits
  rw [ensure_bits_stuck _ _ (by show ¬ (4 < d.length); omega)]
  dsimp only
  rw [if_pos (by omega)]

theorem quickLoop_zero_step (data : List Nat) (h : data.length < 4)
    (c : Nat) (tt : Nat → Nat) (ll : Nat) (out : List Nat)
    (hc : 11 ≤ c) (hout : out.length < 11360) :
    quickLoop { data := data, pos := 4, bit_buffer := 0, bit_count := c } tt ll out =
      quickLoop { data := data, pos := 4, bit_buffer := 0, bit_count := c - 1 - 2 - 8 }
        (quickCopy tt ll (wsub8 (wsub8 ll 0) 1) 2 out).2.1
        (quickCopy tt ll (wsub8 (wsub8 ll 0) 1) 2 out).2.2
        (quickCopy tt ll (wsub8 (wsub8 ll 0) 1) 2 out).1 := by
  rw [quickLoop, dif_pos hout]
  rw [get_bits_zero data c 1 h (by omega)]
  dsimp only
  rw [if_neg (by omega)]
  rw [get_bits_zero data (c - 1) 2 h (by omega)]
  dsimp only
  rw [get_bits_zero data (c - 1 - 2) 8 h (by omega)]

theorem quickLoop_third_fails (data : List Nat) (h : data.length < 4)
    (c : Nat) (tt : Nat → Nat) (ll : Nat) (out : List Nat)
    (hc1 : 3 ≤ c) (hc2 : c < 11) (hout : out.length < 11360) :
    quickLoop { data := data, pos := 4, bit_buffer := 0, bit_count := c } tt ll out =
      .error .eof := by
  rw [quickLoop, dif_pos hout]
  rw [get_bits_zero data c 1 h (by omega)]
  dsimp only
  rw [if_neg (by omega)]
  rw [get_bits_zero data (c - 1) 2 h (by omega)]
  dsimp only
  rw [get_bits_fail data (c - 1 - 2) 8 h (by omega)]

/-- C10: on any QUICK payload shorter than 4 bytes (the empty payload
included) the bit reader is primed with a zero 32-bit buffer that reports
32 bits available, every read of at most the buffered bits succeeds with
value 0, and unpack_quick does not fail immediately: starting from any
ring and cursor it decodes two zero-bit copy steps - emitting 4 output
bytes taken from the current ring - and only the third step's 8-bit read
raises UnexpectedEof, so the whole call returns that error. -/
theorem quick_short_input (data : List Nat) (t : Nat → Nat) (l : Nat)
    (h : data.length < 4) :
    (BitReader.new data).bit_buffer = 0 ∧
    (BitReader.new data).bit_count = 32 ∧
    (∀ n, n ≤ 31 → get_bits (BitReader.new data) n =
      .ok (0, { data := data, pos := 4, bit_buffer := 0, bit_count := 32 - n })) ∧
    (∃ br2 t2 l2 out2,
      quickLoop (BitReader.new data) t l [] = quickLoop br2 t2 l2 out2 ∧
      out2.length = 4 ∧ br2.bit_count = 10) ∧
    unpack_quick t l data = .error .eof := by
  have hnew := BitReader.new_short data h
  have hstep1 := quickLoop_zero_step data h 32 t l [] (by omega) (by decide)
  have hlen1 : (quickCopy t l (wsub8 (wsub8 l 0) 1) 2 []).1.length = 2 := by
    rw [quickCopy_length]
    rfl
  set t1 := (quickCopy t l (wsub8 (wsub8 l 0) 1) 2 []).2.1 with ht1
  set l1 := (quickCopy t l (wsub8 (wsub8 l 0) 1) 2 []).2.2 with hl1
  set o1 := (quickCopy t l (wsub8 (wsub8 l 0) 1) 2 []).1 with ho1
  have hstep2 := quickLoop_zero_step data h (32 - 1 - 2 - 8) t1 l1 o1 (by omega)
    (by omega)
  have hlen2 : (quickCopy t1 l1 (wsub8 (wsub8 l1 0) 1) 2 o1).1.length = 4 := by
    rw [quickCopy_length]
    omega
  refine ⟨?_, ?_, ?_, ?_, ?_⟩
  · rw [hnew]
  · rw [hnew]
  · intro n hn
    rw [hnew]
    exact get_bits_zero data 32 n h (by omega)
  · refine ⟨⟨data, 4, 0, 32 - 1 - 2 - 8 - 1 - 2 - 8⟩,
      (quickCopy t1 l1 (wsub8 (wsub8 l1 0) 1) 2 o1).2.1,
      (quickCopy t1 l1 (wsub8 (wsub8 l1 0) 1) 2 o1).2.2,
      (quickCopy t1 l1 (wsub8 (wsub8 l1 0) 1) 2 o1).1, ?_, hlen2, rfl⟩
    rw [hnew, hstep1, hstep2]
  · unfold unpack_quick
    rw [hnew, hstep1, hstep2]
    rw [quickLoop_third_fails data h (32 - 1 - 2 - 8 - 1 - 2 - 8) _ _ _
      (by omega) (by omega) (by omega)]

/-- Witness for quick_short_input on the empty payload. -/
theorem quick_short_input_witness :
    (BitReader.new []).bit_buffer = 0 ∧
    (BitReader.new []).bit_count = 32 ∧
    (∀ n, n ≤ 31 → get_bits (BitReader.new []) n =
      .ok (0, { data := [], pos := 4, bit_buffer := 0, bit_count := 32 - n })) ∧
    (∃ br2 t2 l2 out2,
      quickLoop (BitReader.new []) (fun _ => 0) 0 [] = quickLoop br2 t2 l2 out2 ∧
      out2.length = 4 ∧ br2.bit_count = 10) ∧
    unpack_quick (fun _ => 0) 0 [] = .error .eof :=
  quick_short_input [] (fun _ => 0) 0 (by decide)


/-! ### Hunk parser (src/hunk.rs) -/

/-- Error taxonomy of the embedded Hunk parser: eof (read_exact),
invalidHeader ("Invalid HUNK_HEADER"), badTable ("Last hunk index is less
than first hunk index"), crash (debug-build u32 underflow or overflow in
parse_debug / fill_debug_info), loopLimit (fuel exhaustion of the
embedded sub-block loop; each Rust loop iteration consumes at least four
stream bytes, so with fuel input.length + 1 this is unreachable). -/
inductive HErr where
  | eof
  | invalidHeader
  | badTable
  | crash
  | loopLimit
deriving DecidableEq, Repr

/-- HunkType of hunk.rs. -/
inductive HunkType where
  | code
  | data
  | bss
deriving DecidableEq, Repr

/-- MemoryType of hunk.rs. -/
inductive MemoryType where
  | any
  | chip
  | fast
deriving DecidableEq, Repr

/-- RelocInfo32 of hunk.rs. -/
structure RelocInfo32 where
  target : Nat
  offsets : List Nat
deriving DecidableEq, Repr

/-- Symbol of hunk.rs (name kept as bytes). -/
structure Symbol where
  name : List Nat
  offset : Nat
deriving DecidableEq, Repr

/-- SourceLine of hunk.rs. -/
structure SourceLine where
  line : Nat
  offset : Nat
deriving DecidableEq, Repr

/-- SourceFile of hunk.rs. -/
structure SourceFile where
  name : List Nat
  base_offset : Nat
  lines : List SourceLine
deriving DecidableEq, Repr

/-- Hunk of hunk.rs. -/
structure Hunk where
  mem_type : MemoryType
  hunk_type : HunkType
  alloc_size : Nat
  data_size : Nat
  code_data : Option (List Nat)
  reloc_32 : Option (List RelocInfo32)
  symbols : Option (List Symbol)
  line_debug_info : Option (List SourceFile)
deriving DecidableEq, Repr

/-- Hunk::default of hunk.rs. -/
def defaultHunk : Hunk :=
  { mem_type := .any, hunk_type := .code, alloc_size := 0, data_size := 0,
    code_data := none, reloc_32 := none, symbols := none, line_debug_info := none }

/-- read_exact over the hunk stream. -/
def hReadExact (input : List Nat) (pos n : Nat) : Except HErr (List Nat × Nat) :=
  if pos + n ≤ input.length then
    .ok ((input.drop pos).take n, pos + n)
  else
    .error .eof

/-- HunkParser::read_u32. -/
def hReadU32 (input : List Nat) (pos : Nat) : Except HErr (Nat × Nat) :=
  if pos + 4 ≤ input.length then .ok (u32At input pos, pos + 4) else .error .eof

/-- A run of k consecutive read_u32 calls (the size-word table,
relocation offsets, ...). -/
def readU32List (input : List Nat) (pos : Nat) : Nat → Except HErr (List Nat × Nat)
  | 0 => .ok ([], pos)
  | k + 1 => do
    let (v, p2) ← hReadU32 input pos
    let (vs, p3) ← readU32List input p2 k
    .ok (v :: vs, p3)

/-- HunkParser::get_size_type: allocation length in longs times four from
the low 28 bits, memory type from the top nibble (bit 30 = chip, bit 31 =
fast). -/
def get_size_type (t : Nat) : Nat × MemoryType :=
  ((t &&& 0x0fffffff) * 4,
   if t &&& 0xf0000000 = 0x40000000 then MemoryType.chip
   else if t &&& 0xf0000000 = 0x80000000 then MemoryType.fast
   else MemoryType.any)

/-- HunkParser::read_name: num_longs * 4 bytes, truncated at the first
NUL. -/
def read_name (input : List Nat) (pos : Nat) (num_longs : Nat) :
    Except HErr (List Nat × Nat) := do
  let (buf, p2) ← hReadExact input pos (num_longs * 4)
  .ok (buf.takeWhile (fun x => x ≠ 0), p2)

theorem hReadU32_ok {input : List Nat} {pos v p2 : Nat}
    (h : hReadU32 input pos = .ok (v, p2)) :
    v = u32At input pos ∧ p2 = pos + 4 ∧ pos + 4 ≤ input.length := by
  unfold hReadU32 at h
  split at h
  · cases h
    exact ⟨rfl, rfl, by omega⟩
  · cases h

theorem hReadExact_ok {input : List Nat} {pos n : Nat} {bs : List Nat} {p2 : Nat}
    (h : hReadExact input pos n = .ok (bs, p2)) :
    p2 = pos + n ∧ pos + n ≤ input.length := by
  unfold hReadExact at h
  split at h
  · cases h
    exact ⟨rfl, by omega⟩
  · cases h

theorem readU32List_ok {input : List Nat} :
    ∀ {k pos : Nat} {vs : List Nat} {p3 : Nat},
      readU32List input pos k = .ok (vs, p3) → p3 = pos + 4 * k ∧ vs.length = k := by
  intro k
  induction k with
  | zero =>
    intro pos vs p3 h
    cases h
    exact ⟨by omega, rfl⟩
  | succ k ih =>
    intro pos vs p3 h
    rw [readU32List] at h
    cases h1 : hReadU32 input pos with
    | error e => rw [h1] at h; cases h
    | ok vp =>
      rw [h1, bind_ok] at h
      dsimp only at h
      cases h2 : readU32List input vp.2 k with
      | error e => rw [h2] at h; cases h
      | ok vsp =>
        rw [h2, bind_ok] at h
        cases h
        obtain ⟨hv, hp, hle⟩ := hReadU32_ok (by rw [h1])
        obtain ⟨hp3, hlen⟩ := ih h2
        constructor
        · omega
        · simp only [List.length_cons]
          omega

theorem read_name_ok {input : List Nat} {pos n : Nat} {nm : List Nat} {p2 : Nat}
    (h : read_name input pos n = .ok (nm, p2)) :
    p2 = pos + 4 * n := by
  unfold read_name at h
  cases h1 : hReadExact input pos (n * 4) with
  | error e => rw [h1] at h; cases h
  | ok bp =>
    rw [h1, bind_ok] at h
    dsimp only at h
    cases h
    obtain ⟨hp, _⟩ := hReadExact_ok h1
    omega

/-- The group loop of HunkParser::parse_reloc32: read a count word; zero
terminates; otherwise read the target hunk and count offsets and
continue. -/
def relocLoop (input : List Nat) (pos : Nat) (acc : List RelocInfo32) :
    Except HErr (List RelocInfo32 × Nat) :=
  if hp : pos + 4 ≤ input.length then
    if hc : u32At input pos = 0 then
      .ok (acc, pos + 4)
    else
      match h2 : hReadU32 input (pos + 4) with
      | .error e => .error e
      | .ok tp =>
        match h3 : readU32List input tp.2 (u32At input pos) with
        | .error e => .error e
        | .ok op =>
          relocLoop input op.2 (acc ++ [{ target := tp.1, offsets := op.1 }])
  else
    .error .eof
termination_by input.length - pos
decreasing_by
  obtain ⟨hv, hps, hle⟩ := hReadU32_ok h2
  obtain ⟨hp3, hlen⟩ := readU32List_ok h3
  omega

/-- The entry loop of HunkParser::parse_symbols: read a name-length word;
zero terminates; otherwise read the name and its offset and continue. -/
def symsLoop (input : List Nat) (pos : Nat) (acc : List Symbol) :
    Except HErr (List Symbol × Nat) :=
  if hp : pos + 4 ≤ input.length then
    if hc : u32At input pos = 0 then
      .ok (acc, pos + 4)
    else
      match h2 : read_name input (pos + 4) (u32At input pos) with
      | .error e => .error e
      | .ok np =>
        match h3 : hReadU32 input np.2 with
        | .error e => .error e
        | .ok op =>
          symsLoop input op.2 (acc ++ [{ name := np.1, offset := op.1 }])
  else
    .error .eof
termination_by input.length - pos
decreasing_by
  have hps := read_name_ok h2
  obtain ⟨hv, hps2, hle⟩ := hReadU32_ok h3
  omega

/-- A stable insertion into a list sorted by offset (Rust sort_by_key is
stable; inserting behind existing equal keys preserves stability). -/
def insertByOffset (s : Symbol) : List Symbol → List Symbol
  | [] => [s]
  | x :: xs => if s.offset ≤ x.offset then s :: x :: xs else x :: insertByOffset s xs

/-- Stable sort by offset (symbols.sort_by_key of hunk.rs). -/
def sortByOffset : List Symbol → List Symbol
  | [] => []
  | x :: xs => insertByOffset x (sortByOffset xs)

/-- The line entries of HunkParser::fill_debug_info: pairs of line number
(masked to 24 bits) and base_offset + offset (u32 addition; overflow is a
debug-build panic, modelled as crash). -/
def linesLoop (input : List Nat) (base : Nat) (pos : Nat) :
    Nat → Except HErr (List SourceLine × Nat)
  | 0 => .ok ([], pos)
  | k + 1 => do
    let (v1, p1) ← hReadU32 input pos
    let (v2, p2) ← hReadU32 input p1
    if base + v2 < 4294967296 then do
      let (ls, p3) ← linesLoop input base p2 k
      .ok ({ line := v1 % 16777216, offset := base + v2 } :: ls, p3)
    else
      .error .crash

/-- HunkParser::parse_debug (including fill_debug_info): total longs
minus 2 (u32 underflow = debug panic = crash), base offset, tag; a
non-LINE tag seeks past the payload, a LINE tag parses a SourceFile. -/
def parse_debug (input : List Nat) (pos : Nat) (hunk : Hunk) :
    Except HErr (Hunk × Nat) := do
  let (nl0, p1) ← hReadU32 input pos
  if nl0 < 2 then
    .error .crash
  else do
    let (base_offset, p2) ← hReadU32 input p1
    let (tag, p3) ← hReadU32 input p2
    if tag ≠ 1279874117 then
      .ok (hunk, p3 + (nl0 - 2) * 4)
    else do
      let (nml, p4) ← hReadU32 input p3
      let (nm, p5) ← read_name input p4 nml
      if nml + 1 > nl0 - 2 then
        .error .crash
      else do
        let (ls, p6) ← linesLoop input base_offset p5 ((nl0 - 2 - nml - 1) / 2)
        let sf : SourceFile := { name := nm, base_offset := base_offset, lines := ls }
        .ok ({ hunk with line_debug_info := some ((hunk.line_debug_info.getD []) ++ [sf]) }, p6)

/-- The sub-block loop of HunkParser::parse_hunk, fueled (see HErr).
1001/1002 CODE/DATA, 1003 BSS, 1004 RELOC32, 1008 SYMBOL, 1009 DEBUG,
1010 END, anything else skipped by its size word times four. -/
def parseHunkLoop (input : List Nat) : Nat → Nat → Hunk → Except HErr (Hunk × Nat)
  | 0, _, _ => .error .loopLimit
  | fuel + 1, pos, hunk => do
    let (ht, p1) ← hReadU32 input pos
    if ht = 1001 then do
      let (sw, p2) ← hReadU32 input p1
      let (cd, p3) ← hReadExact input p2 (get_size_type sw).1
      parseHunkLoop input fuel p3
        { hunk with
            hunk_type := .code
            mem_type := (get_size_type sw).2
            data_size := (get_size_type sw).1
            code_data := some cd }
    else if ht = 1002 then do
      let (sw, p2) ← hReadU32 input p1
      let (cd, p3) ← hReadExact input p2 (get_size_type sw).1
      parseHunkLoop input fuel p3
        { hunk with
            hunk_type := .data
            mem_type := (get_size_type sw).2
            data_size := (get_size_type sw).1
            code_data := some cd }
    else if ht = 1003 then do
      let (sw, p2) ← hReadU32 input p1
      parseHunkLoop input fuel p2
        { hunk with
            hunk_type := .bss
            mem_type := (get_size_type sw).2
            data_size := (get_size_type sw).1 }
    else if ht = 1004 then do
      let (rl, p2) ← relocLoop input p1 []
      parseHunkLoop input fuel p2 { hunk with reloc_32 := some rl }
    else if ht = 1008 then do
      let (syms, p2) ← symsLoop input p1 []
      parseHunkLoop input fuel p2
        (if syms.isEmpty then hunk
         else { hunk with symbols := some (sortByOffset syms) })
    else if ht = 1009 then do
      let (h2, p2) ← parse_debug input p1 hunk
      parseHunkLoop input fuel p2 h2
    else if ht = 1010 then
      .ok (hunk, p1)
    else do
      let (sw, p2) ← hReadU32 input p1
      parseHunkLoop input fuel (p2 + sw * 4) hunk

/-- HunkParser::parse_hunk of hunk.rs. -/
def parse_hunk (input : List Nat) (pos : Nat) : Except HErr (Hunk × Nat) :=
  parseHunkLoop input (input.length + 1) pos defaultHunk

/-- The hunk-count loop of HunkParser::parse_hunks. -/
def parseHunksLoop (input : List Nat) (pos : Nat) : Nat → Except HErr (List Hunk × Nat)
  | 0 => .ok ([], pos)
  | k + 1 => do
    let (h, p2) ← parse_hunk input pos
    let (hs, p3) ← parseHunksLoop input p2 k
    .ok (h :: hs, p3)

/-- HunkParser::validate_hunk_header of hunk.rs: magic 1011 or
InvalidData, then one skipped word (the resident-library names section). -/
def validate_hunk_header (input : List Nat) (pos : Nat) : Except HErr Nat := do
  let (magic, p1) ← hReadU32 input pos
  if magic ≠ 1011 then
    .error .invalidHeader
  else do
    let (skip_word, p2) ← hReadU32 input p1
    .ok p2

/-- HunkParser::read_hunk_table of hunk.rs: table size, first and last
hunk index, BadTable when last < first, then count = last - first + 1
size words. -/
def read_hunk_table (input : List Nat) (pos : Nat) :
    Except HErr (Nat × List Nat × Nat) := do
  let (table_size, p1) ← hReadU32 input pos
  let (first_hunk, p2) ← hReadU32 input p1
  let (last_hunk, p3) ← hReadU32 input p2
  if last_hunk < first_hunk then
    .error .badTable
  else do
    let (sizes, p4) ← readU32List input p3 (last_hunk - first_hunk + 1)
    .ok (last_hunk - first_hunk + 1, sizes, p4)

/-- HunkParser::parse_hunks of hunk.rs. -/
def parse_hunks (input : List Nat) : Except HErr (List Hunk) := do
  let p1 ← validate_hunk_header input 0
  let (count, sizes, p2) ← read_hunk_table input p1
  let (hs, p3) ← parseHunksLoop input p2 count
  .ok hs


theorem validate_hunk_header_ok {input : List Nat} {p : Nat}
    (h : validate_hunk_header input 0 = .ok p) :
    p = 8 ∧ u32At input 0 = 1011 ∧ 8 ≤ input.length := by
  unfold validate_hunk_header at h
  cases h1 : hReadU32 input 0 with
  | error e => rw [h1, bind_err] at h; cases h
  | ok mp =>
    obtain ⟨magic, p1⟩ := mp
    rw [h1, bind_ok] at h
    dsimp only at h
    obtain ⟨hm, hp1, hle⟩ := hReadU32_ok h1
    by_cases hmagic : magic ≠ 1011
    · rw [if_pos hmagic] at h
      cases h
    · rw [if_neg hmagic] at h
      cases h2 : hReadU32 input p1 with
      | error e => rw [h2, bind_err] at h; cases h
      | ok sp =>
        obtain ⟨sw, p2⟩ := sp
        rw [h2, bind_ok] at h
        cases h
        obtain ⟨hsw, hp2, hle2⟩ := hReadU32_ok h2
        refine ⟨by omega, by omega, by omega⟩

theorem read_hunk_table_ok {input : List Nat} {c : Nat} {szs : List Nat} {p : Nat}
    (h : read_hunk_table input 8 = .ok (c, szs, p)) :
    c = u32At input 16 - u32At input 12 + 1 ∧ u32At input 12 ≤ u32At input 16 := by
  unfold read_hunk_table at h
  cases h1 : hReadU32 input 8 with
  | error e => rw [h1, bind_err] at h; cases h
  | ok tp =>
    obtain ⟨ts, p1⟩ := tp
    rw [h1, bind_ok] at h
    dsimp only at h
    obtain ⟨hts, hp1, hle1⟩ := hReadU32_ok h1
    have hp1' : p1 = 12 := by omega
    subst hp1'
    cases h2 : hReadU32 input 12 with
    | error e => rw [h2, bind_err] at h; cases h
    | ok fp =>
      obtain ⟨fh, p2⟩ := fp
      rw [h2, bind_ok] at h
      dsimp only at h
      obtain ⟨hfh, hp2, hle2⟩ := hReadU32_ok h2
      have hp2' : p2 = 16 := by omega
      subst hp2'
      cases h3 : hReadU32 input 16 with
      | error e => rw [h3, bind_err] at h; cases h
      | ok lp =>
        obtain ⟨lh, p3⟩ := lp
        rw [h3, bind_ok] at h
        dsimp only at h
        obtain ⟨hlh, hp3, hle3⟩ := hReadU32_ok h3
        by_cases hlt : lh < fh
        · rw [if_pos hlt] at h
          cases h
        · rw [if_neg hlt] at h
          cases h4 : readU32List input p3 (lh - fh + 1) with
          | error e => rw [h4, bind_err] at h; cases h
          | ok szp =>
            obtain ⟨szs2, p4⟩ := szp
            rw [h4, bind_ok] at h
            cases h
            subst hfh
            subst hlh
            exact ⟨rfl, by omega⟩

theorem parseHunksLoop_length {input : List Nat} :
    ∀ {k pos : Nat} {hs : List Hunk} {p : Nat},
      parseHunksLoop input pos k = .ok (hs, p) → hs.length = k := by
  intro k
  induction k with
  | zero =>
    intro pos hs p h
    cases h
    rfl
  | succ k ih =>
    intro pos hs p h
    rw [parseHunksLoop] at h
    cases h1 : parse_hunk input pos with
    | error e => rw [h1, bind_err] at h; cases h
    | ok hp2 =>
      obtain ⟨h1k, p2⟩ := hp2
      rw [h1, bind_ok] at h
      dsimp only at h
      cases h2 : parseHunksLoop input p2 k with
      | error e => rw [h2, bind_err] at h; cases h
      | ok hsp =>
        obtain ⟨hs2, p3⟩ := hsp
        rw [h2, bind_ok] at h
        cases h
        simp only [List.length_cons]
        rw [ih h2]


/-- C9: parse_hunks fails with the invalid-header error when the first
big-endian u32 of the stream is not 1011 (HUNK_HEADER); it fails with
the bad-table error when the table's last hunk index is below its first
hunk index; and whenever it succeeds, first ≤ last held and it returns
exactly last − first + 1 parsed hunks (the hunk table having supplied
that many size words). -/
theorem parse_hunks_contract (input : List Nat) :
    (4 ≤ input.length → u32At input 0 ≠ 1011 →
      parse_hunks input = .error .invalidHeader) ∧
    (20 ≤ input.length → u32At input 0 = 1011 →
      u32At input 16 < u32At input 12 →
      parse_hunks input = .error .badTable) ∧
    (∀ hs : List Hunk, parse_hunks input = .ok hs →
      u32At input 12 ≤ u32At input 16 ∧
      hs.length = u32At input 16 - u32At input 12 + 1) := by
  refine ⟨?_, ?_, ?_⟩
  · intro hlen hm
    unfold parse_hunks validate_hunk_header
    rw [show hReadU32 input 0 = .ok (u32At input 0, 4) from by
          unfold hReadU32; rw [if_pos (by omega)], bind_ok]
    dsimp only
    rw [if_pos hm, bind_err]
  · intro hlen hm hlt
    unfold parse_hunks validate_hunk_header
    rw [show hReadU32 input 0 = .ok (u32At input 0, 4) from by
          unfold hReadU32; rw [if_pos (by omega)], bind_ok]
    dsimp only
    rw [if_neg (by omega : ¬u32At input 0 ≠ 1011)]
    rw [show hReadU32 input 4 = .ok (u32At input 4, 8) from by
          unfold hReadU32; rw [if_pos (by omega)], bind_ok]
    dsimp only
    rw [bind_ok]
    unfold read_hunk_table
    rw [show hReadU32 input 8 = .ok (u32At input 8, 12) from by
          unfold hReadU32; rw [if_pos (by omega)], bind_ok]
    dsimp only
    rw [show hReadU32 input 12 = .ok (u32At input 12, 16) from by
          unfold hReadU32; rw [if_pos (by omega)], bind_ok]
    dsimp only
    rw [show hReadU32 input 16 = .ok (u32At input 16, 20) from by
          unfold hReadU32; rw [if_pos (by omega)], bind_ok]
    dsimp only
    rw [if_pos hlt, bind_err]
  · intro hs hok
    unfold parse_hunks at hok
    cases hv : validate_hunk_header input 0 with
    | error e => rw [hv, bind_err] at hok; cases hok
    | ok p1 =>
      rw [hv, bind_ok] at hok
      obtain ⟨hp1, hmagic, hlen8⟩ := validate_hunk_header_ok hv
      subst hp1
      cases hrt : read_hunk_table input 8 with
      | error e => rw [hrt, bind_err] at hok; cases hok
      | ok csp =>
        obtain ⟨c, szs, p2⟩ := csp
        rw [hrt, bind_ok] at hok
        dsimp only at hok
        obtain ⟨hc, hle⟩ := read_hunk_table_ok hrt
        cases hpl : parseHunksLoop input p2 c with
        | error e => rw [hpl, bind_err] at hok; cases hok
        | ok hsp =>
          obtain ⟨hs2, p3⟩ := hsp
          rw [hpl, bind_ok] at hok
          cases hok
          refine ⟨hle, ?_⟩
          rw [parseHunksLoop_length hpl, hc]

/-- A four-byte stream whose first word is 0, not HUNK_HEADER. -/
def badMagicC9 : List Nat := [0, 0, 0, 0]

/-- A twenty-byte stream with a valid magic but first hunk index 5 and
last hunk index 2. -/
def badTableC9 : List Nat :=
  [0, 0, 3, 243] ++ [0, 0, 0, 0] ++ [0, 0, 0, 1] ++ [0, 0, 0, 5] ++ [0, 0, 0, 2]

/-- A minimal well-formed hunk file: header (magic 1011, empty names
section), table size 1, first 0, last 0, one size word, then one hunk:
HUNK_CODE (1001) of one long (four payload bytes) closed by HUNK_END
(1010). -/
def hunkC9 : List Nat :=
  [0, 0, 3, 243] ++ [0, 0, 0, 0] ++
  [0, 0, 0, 1] ++ [0, 0, 0, 0] ++ [0, 0, 0, 0] ++ [0, 0, 0, 1] ++
  [0, 0, 3, 233] ++ [0, 0, 0, 1] ++ [222, 173, 190, 239] ++ [0, 0, 3, 242]

/-- The single hunk parsed from hunkC9. -/
def hunkC9parsed : List Hunk :=
  [{ mem_type := .any, hunk_type := .code, alloc_size := 0, data_size := 4,
     code_data := some [222, 173, 190, 239], reloc_32 := none, symbols := none,
     line_debug_info := none }]

theorem parse_hunks_contract_witness :
    (4 ≤ badMagicC9.length ∧ u32At badMagicC9 0 ≠ 1011 ∧
      parse_hunks badMagicC9 = .error .invalidHeader) ∧
    (20 ≤ badTableC9.length ∧ u32At badTableC9 0 = 1011 ∧
      u32At badTableC9 16 < u32At badTableC9 12 ∧
      parse_hunks badTableC9 = .error .badTable) ∧
    (parse_hunks hunkC9 = .ok hunkC9parsed ∧
      (u32At hunkC9 12 ≤ u32At hunkC9 16 ∧
        hunkC9parsed.length = u32At hunkC9 16 - u32At hunkC9 12 + 1)) :=
  ⟨⟨by decide, by decide,
     (parse_hunks_contract badMagicC9).1 (by decide) (by decide)⟩,
   ⟨by decide, by decide, by decide,
     (parse_hunks_contract badTableC9).2.1 (by decide) (by decide) (by decide)⟩,
   ⟨by decide,
     (parse_hunks_contract hunkC9).2.2 hunkC9parsed (by decide)⟩⟩

end Adflib
